import Mathlib

/-!
# barnacle: ShardConn / TabletConn

A shallow embedding of `go/vt/barnacle/shard_conn.go` and
`go/vt/barnacle/tablet_conn.go`.

The Go code talks to three collaborators that live outside these two files:
the `Balancer` (`Get`, `MarkDown`), the dial primitives of `bsonrpc`
(`DialHTTP`, `DialAuthHTTP`) and the `rpcplus.Client` (`Call`, `StreamGo`,
`Close`).  They are taken as a parameter `Env`: every answer of a collaborator
is a function of the whole history of interactions so far, so quantifying over
`Env` quantifies over every (deterministic) behaviour of the collaborators.
Each interaction is appended to a chronological log of `Event`s together with
the answer that was given.

Go's `error` interface value is `Option GoError` (`none` is `nil`); a pointer
that may be `nil` is an `Option`.  A method call through a `nil` pointer is a
run-time fault; the operations that could meet one return `none` there.
-/

namespace Barnacle

/-- A non-nil Go `error`.  The only dynamic type the code distinguishes is
`rpcplus.ServerError` (the type assertion in `mustReturn`). -/
inductive GoError where
  | serverError (msg : String)
  | other (msg : String)
  deriving DecidableEq, Repr

/-- The type assertion `err.(rpcplus.ServerError)`. -/
def GoError.isServerError : GoError → Bool
  | .serverError _ => true
  | .other _ => false

/-- The text of an error (`Error()`). -/
def GoError.msg : GoError → String
  | .serverError m => m
  | .other m => m

/-- The verb `%v` of `fmt` applied to an `error` value. -/
def fmtV : Option GoError → String
  | none => "<nil>"
  | some e => e.msg

/-- The struct `tproto.Session`: `{TransactionId, ConnectionId, SessionId}`. -/
structure Session where
  TransactionId : Int
  ConnectionId : Int
  SessionId : Int
  deriving DecidableEq, Repr

/-- The struct `tproto.Query`. -/
structure Query where
  Sql : String
  BindVariables : List (String × String)
  TransactionId : Int
  ConnectionId : Int
  SessionId : Int
  deriving DecidableEq, Repr

/-- The struct `mproto.QueryResult` (its content is not inspected by this code). -/
structure QueryResult where
  Rows : List (List String)
  deriving DecidableEq, Repr

/-- The struct `StreamResult`: the in-flight call and the channel, of which
only the buffer capacity is kept. -/
structure StreamResult where
  Call : Nat
  StreamCap : Nat
  deriving DecidableEq, Repr

/-- The struct `TabletConn`: an `rpcplus.Client` handle and the embedded
`tproto.Session`.  `DialTablet` is the only place that builds one and it always
sets `rpcClient`; `TabletConn.Close` drops it, and the closed object is never
used again by `ShardConn`, so the handle is not optional here. -/
structure TabletConn extends Session where
  rpcClient : Nat
  deriving DecidableEq, Repr

/-- One interaction with a collaborator, with the answer it gave.
`connect` is a marker written at each entry of `ShardConn.connect`. -/
inductive Event where
  | connect
  | balancerGet (res : Except GoError String)
  | markDown (addr : String)
  | dialHTTP (addr : String) (res : Except GoError Nat)
  | dialAuthHTTP (addr username password : String) (res : Except GoError Nat)
  | getSessionId (client : Nat) (keyspace shard : String) (res : Except GoError Int)
  | rpcClose (client : Nat) (res : Option GoError)
  | execute (client : Nat) (req : Query) (res : Except GoError QueryResult)
  | streamExecute (client : Nat) (req : Query) (call : Nat)
  | begin (client : Nat) (sess : Session) (res : Except GoError Int)
  | commit (client : Nat) (sess : Session) (res : Option GoError)
  | rollback (client : Nat) (sess : Session) (res : Option GoError)

/-- The collaborators.  Each answer may depend on everything that happened
before (the log) and on the arguments of the call. -/
structure Env where
  balancerGet : List Event → Except GoError String
  dialHTTP : List Event → String → Except GoError Nat
  dialAuthHTTP : List Event → String → String → String → Except GoError Nat
  getSessionId : List Event → Nat → String → String → Except GoError Int
  rpcClose : List Event → Nat → Option GoError
  rpcExecute : List Event → Nat → Query → Except GoError QueryResult
  rpcStreamGo : List Event → Nat → Query → Nat
  rpcBegin : List Event → Nat → Session → Except GoError Int
  rpcCommit : List Event → Nat → Session → Option GoError
  rpcRollback : List Event → Nat → Session → Option GoError

/-! ## tablet_conn.go -/

/-- `DialTablet(addr, keyspace, shard, username, password, encrypted)`:
dial, then the `SqlQuery.GetSessionId` handshake; the new client carries the
session id and zero transaction and connection ids. -/
def DialTablet (env : Env) (tr : List Event) (addr keyspace shard username password : String)
    (_encrypted : Bool) : Except GoError TabletConn × List Event :=
  let r := if username ≠ "" then env.dialAuthHTTP tr addr username password
           else env.dialHTTP tr addr
  let tr1 := tr ++ [if username ≠ "" then Event.dialAuthHTTP addr username password r
                    else Event.dialHTTP addr r]
  match r with
  | .error e => (.error e, tr1)
  | .ok client =>
    let r2 := env.getSessionId tr1 client keyspace shard
    let tr2 := tr1 ++ [Event.getSessionId client keyspace shard r2]
    match r2 with
    | .error e => (.error e, tr2)
    | .ok sid =>
      (.ok { rpcClient := client, TransactionId := 0, ConnectionId := 0, SessionId := sid }, tr2)

/-- `TabletConn.Close`: zero the session, drop the rpc client, close it.
Returns the zeroed session, the error of the close and the log. -/
def TabletConn.Close (env : Env) (conn : TabletConn) (tr : List Event) :
    Session × Option GoError × List Event :=
  let r := env.rpcClose tr conn.rpcClient
  ({ TransactionId := 0, ConnectionId := 0, SessionId := 0 }, r,
    tr ++ [Event.rpcClose conn.rpcClient r])

/-- The request built by `ExecDirect` and `ExecStream`. -/
def TabletConn.query (conn : TabletConn) (query : String) (bindVars : List (String × String)) :
    Query :=
  { Sql := query, BindVariables := bindVars, TransactionId := conn.TransactionId,
    ConnectionId := conn.ConnectionId, SessionId := conn.SessionId }

/-- `TabletConn.ExecDirect`: one `SqlQuery.Execute` call; `(nil, err)` on error,
`(qr, nil)` otherwise. -/
def TabletConn.ExecDirect (env : Env) (conn : TabletConn) (query : String)
    (bindVars : List (String × String)) (tr : List Event) :
    Option QueryResult × Option GoError × List Event :=
  let req := conn.query query bindVars
  let r := env.rpcExecute tr conn.rpcClient req
  let tr1 := tr ++ [Event.execute conn.rpcClient req r]
  match r with
  | .error e => (none, some e, tr1)
  | .ok qr => (some qr, none, tr1)

/-- `TabletConn.ExecStream`: starts `SqlQuery.StreamExecute` on a channel of
capacity 10 and always returns a nil error. -/
def TabletConn.ExecStream (env : Env) (conn : TabletConn) (query : String)
    (bindVars : List (String × String)) (tr : List Event) :
    Option StreamResult × Option GoError × List Event :=
  let req := conn.query query bindVars
  let c := env.rpcStreamGo tr conn.rpcClient req
  (some { Call := c, StreamCap := 10 }, none, tr ++ [Event.streamExecute conn.rpcClient req c])

/-- Modelled from the spec: `rpcplus.Client.Call` is not among the sources; "on
success, the backend-returned transaction id is stored", and a failed call
leaves the reply variable as it was.

`TabletConn.Begin`: one `SqlQuery.Begin` call whose reply is `conn.TransactionId`. -/
def TabletConn.Begin (env : Env) (conn : TabletConn) (tr : List Event) :
    TabletConn × Option GoError × List Event :=
  let r := env.rpcBegin tr conn.rpcClient conn.toSession
  let tr1 := tr ++ [Event.begin conn.rpcClient conn.toSession r]
  match r with
  | .error e => (conn, some e, tr1)
  | .ok tid => ({ conn with TransactionId := tid }, none, tr1)

/-- `TabletConn.Commit`: one `SqlQuery.Commit` call; the deferred function
resets `TransactionId` whatever the call returned. -/
def TabletConn.Commit (env : Env) (conn : TabletConn) (tr : List Event) :
    TabletConn × Option GoError × List Event :=
  let r := env.rpcCommit tr conn.rpcClient conn.toSession
  ({ conn with TransactionId := 0 }, r, tr ++ [Event.commit conn.rpcClient conn.toSession r])

/-- `TabletConn.Rollback`: one `SqlQuery.Rollback` call; the deferred function
resets `TransactionId` whatever the call returned. -/
def TabletConn.Rollback (env : Env) (conn : TabletConn) (tr : List Event) :
    TabletConn × Option GoError × List Event :=
  let r := env.rpcRollback tr conn.rpcClient conn.toSession
  ({ conn with TransactionId := 0 }, r, tr ++ [Event.rollback conn.rpcClient conn.toSession r])

/-! ## shard_conn.go -/

/-- The struct `ShardConn`.  The `balancer` field points to the shared
`Balancer`, which is part of `Env`. -/
structure ShardConn where
  address : String
  keyspace : String
  shard : String
  tabletType : String
  retryCount : Int
  conn : Option TabletConn
  deriving DecidableEq, Repr

/-- `NewShardConn`: no address, no client. -/
def NewShardConn (keyspace shard tabletType : String) (retryCount : Int) : ShardConn :=
  { address := "", keyspace := keyspace, shard := shard, tabletType := tabletType,
    retryCount := retryCount, conn := none }

/-- The error built by the last line of `connect`. -/
def connectError (sdc : ShardConn) (lastError : Option GoError) : GoError :=
  .other ("could not obtain connection to " ++ sdc.keyspace ++ "." ++ sdc.shard ++ "."
    ++ sdc.tabletType ++ ", last error: " ++ fmtV lastError)

/-- The loop of `ShardConn.connect`, by the number of iterations left
(`retryCount - i`), carrying `lastError`. -/
def connectLoop (env : Env) : Nat → Option GoError → ShardConn → List Event →
    Option GoError × ShardConn × List Event
  | 0, lastError, sdc, tr => (some (connectError sdc lastError), sdc, tr)
  | n + 1, _, sdc, tr =>
    let r := env.balancerGet tr
    let tr1 := tr ++ [Event.balancerGet r]
    match r with
    | .error err => (some err, sdc, tr1)
    | .ok addr =>
      match DialTablet env tr1 addr sdc.keyspace sdc.shard "" "" false with
      | (.error err, tr2) => connectLoop env n (some err) sdc (tr2 ++ [Event.markDown addr])
      | (.ok conn, tr2) => (none, { sdc with address := addr, conn := some conn }, tr2)

/-- `ShardConn.connect`. -/
def ShardConn.connect (env : Env) (sdc : ShardConn) (tr : List Event) :
    Option GoError × ShardConn × List Event :=
  connectLoop env sdc.retryCount.toNat none sdc (tr ++ [Event.connect])

/-- `ShardConn.Close`. -/
def ShardConn.Close (env : Env) (sdc : ShardConn) (tr : List Event) :
    Option GoError × ShardConn × List Event :=
  match sdc.conn with
  | none => (none, sdc, tr)
  | some conn =>
    let r := TabletConn.Close env conn tr
    (r.2.1, { sdc with address := "", conn := none }, r.2.2)

/-- `ShardConn.inTransaction`. -/
def ShardConn.inTransaction (sdc : ShardConn) : Bool :=
  match sdc.conn with
  | none => false
  | some conn => conn.TransactionId != 0

/-- `ShardConn.mustReturn`. -/
def ShardConn.mustReturn (env : Env) (err : Option GoError) (sdc : ShardConn) (tr : List Event) :
    Bool × ShardConn × List Event :=
  match err with
  | none => (true, sdc, tr)
  | some e =>
    if e.isServerError then (true, sdc, tr)
    else
      let inTransaction := sdc.inTransaction
      let r := sdc.Close env (tr ++ [Event.markDown sdc.address])
      (inTransaction, r.2.1, r.2.2)

/-- The head of each loop body of the execute-style operations:
`if sdc.conn == nil { if err = sdc.connect(); err != nil { return ... } }`. -/
def ShardConn.ensureConn (env : Env) (sdc : ShardConn) (tr : List Event) :
    Option GoError × ShardConn × List Event :=
  match sdc.conn with
  | none => sdc.connect env tr
  | some _ => (none, sdc, tr)

/-- The loop of `ShardConn.ExecDirect`, by the number of iterations left,
carrying the named results `(qr, err)`. -/
def execDirectLoop (env : Env) (query : String) (bindVars : List (String × String)) :
    Nat → Option QueryResult × Option GoError → ShardConn → List Event →
    Option ((Option QueryResult × Option GoError) × ShardConn × List Event)
  | 0, ret, sdc, tr => some (ret, sdc, tr)
  | n + 1, _, sdc, tr =>
    match sdc.ensureConn env tr with
    | (some err, sdc1, tr1) => some ((none, some err), sdc1, tr1)
    | (none, sdc1, tr1) =>
      match sdc1.conn with
      | none => none
      | some conn =>
        let r := conn.ExecDirect env query bindVars tr1
        let m := sdc1.mustReturn env r.2.1 r.2.2
        if m.1 then some ((r.1, r.2.1), m.2.1, m.2.2)
        else execDirectLoop env query bindVars n (r.1, r.2.1) m.2.1 m.2.2

/-- `ShardConn.ExecDirect`. -/
def ShardConn.ExecDirect (env : Env) (query : String) (bindVars : List (String × String))
    (sdc : ShardConn) (tr : List Event) :
    Option ((Option QueryResult × Option GoError) × ShardConn × List Event) :=
  execDirectLoop env query bindVars 2 (none, none) sdc tr

/-- The loop of `ShardConn.ExecStream`. -/
def execStreamLoop (env : Env) (query : String) (bindVars : List (String × String)) :
    Nat → Option StreamResult × Option GoError → ShardConn → List Event →
    Option ((Option StreamResult × Option GoError) × ShardConn × List Event)
  | 0, ret, sdc, tr => some (ret, sdc, tr)
  | n + 1, _, sdc, tr =>
    match sdc.ensureConn env tr with
    | (some err, sdc1, tr1) => some ((none, some err), sdc1, tr1)
    | (none, sdc1, tr1) =>
      match sdc1.conn with
      | none => none
      | some conn =>
        let r := conn.ExecStream env query bindVars tr1
        let m := sdc1.mustReturn env r.2.1 r.2.2
        if m.1 then some ((r.1, r.2.1), m.2.1, m.2.2)
        else execStreamLoop env query bindVars n (r.1, r.2.1) m.2.1 m.2.2

/-- `ShardConn.ExecStream`. -/
def ShardConn.ExecStream (env : Env) (query : String) (bindVars : List (String × String))
    (sdc : ShardConn) (tr : List Event) :
    Option ((Option StreamResult × Option GoError) × ShardConn × List Event) :=
  execStreamLoop env query bindVars 2 (none, none) sdc tr

/-- The loop of `ShardConn.Begin`, carrying the named result `err`.  The
client is a pointer: what `conn.Begin` writes is seen through `sdc.conn`. -/
def beginLoop (env : Env) : Nat → Option GoError → ShardConn → List Event →
    Option (Option GoError × ShardConn × List Event)
  | 0, err, sdc, tr => some (err, sdc, tr)
  | n + 1, _, sdc, tr =>
    match sdc.ensureConn env tr with
    | (some err, sdc1, tr1) => some (some err, sdc1, tr1)
    | (none, sdc1, tr1) =>
      match sdc1.conn with
      | none => none
      | some conn =>
        let r := conn.Begin env tr1
        let m := ShardConn.mustReturn env r.2.1 { sdc1 with conn := some r.1 } r.2.2
        if m.1 then some (r.2.1, m.2.1, m.2.2)
        else beginLoop env n r.2.1 m.2.1 m.2.2

/-- `ShardConn.Begin`. -/
def ShardConn.Begin (env : Env) (sdc : ShardConn) (tr : List Event) :
    Option (Option GoError × ShardConn × List Event) :=
  if sdc.inTransaction then
    some (some (.other "cannot begin: already in transaction"), sdc, tr)
  else beginLoop env 2 none sdc tr

/-- `ShardConn.Commit`. -/
def ShardConn.Commit (env : Env) (sdc : ShardConn) (tr : List Event) :
    Option (Option GoError × ShardConn × List Event) :=
  if !sdc.inTransaction then
    some (some (.other "cannot commit: not in transaction"), sdc, tr)
  else
    match sdc.conn with
    | none => none
    | some conn =>
      let r := conn.Commit env tr
      some (r.2.1, { sdc with conn := some r.1 }, r.2.2)

/-- `ShardConn.Rollback`. -/
def ShardConn.Rollback (env : Env) (sdc : ShardConn) (tr : List Event) :
    Option (Option GoError × ShardConn × List Event) :=
  if !sdc.inTransaction then
    some (some (.other "cannot rollback: not in transaction"), sdc, tr)
  else
    match sdc.conn with
    | none => none
    | some conn =>
      let r := conn.Rollback env tr
      some (r.2.1, { sdc with conn := some r.1 }, r.2.2)

/-! ## Reading the log -/

/-- The answer recorded in a `SqlQuery.Execute` event. -/
def Event.executeRes : Event → Option (Except GoError QueryResult)
  | .execute _ _ r => some r
  | _ => none

/-- The answer recorded in a `SqlQuery.Begin` event. -/
def Event.beginRes : Event → Option (Except GoError Int)
  | .begin _ _ r => some r
  | _ => none

/-- The call handle recorded in a `SqlQuery.StreamExecute` event. -/
def Event.streamCall : Event → Option Nat
  | .streamExecute _ _ c => some c
  | _ => none

/-- Entry of `ShardConn.connect`. -/
def Event.isConnect : Event → Bool
  | .connect => true
  | _ => false

/-- The events the body of `connect` can write: `Get`, `MarkDown`, the dial and
the handshake. -/
def Event.isDial : Event → Bool
  | .balancerGet _ => true
  | .markDown _ => true
  | .dialHTTP _ _ => true
  | .getSessionId _ _ _ _ => true
  | _ => false

/-- The answers of the `SqlQuery.Execute` calls of a log, in order. -/
def executeResults (l : List Event) : List (Except GoError QueryResult) :=
  l.filterMap Event.executeRes

/-- The answers of the `SqlQuery.Begin` calls of a log, in order. -/
def beginResults (l : List Event) : List (Except GoError Int) :=
  l.filterMap Event.beginRes

/-- The handles of the `SqlQuery.StreamExecute` calls of a log, in order. -/
def streamCalls (l : List Event) : List Nat :=
  l.filterMap Event.streamCall

/-- How many times `connect` was entered in a log. -/
def connectCount (l : List Event) : Nat :=
  l.countP Event.isConnect

/-- What `TabletConn.ExecDirect` returns for an answer of the call. -/
def execReturn : Except GoError QueryResult → Option QueryResult × Option GoError
  | .error e => (none, some e)
  | .ok qr => (some qr, none)

/-- What `TabletConn.ExecStream` returns for a call handle. -/
def streamReturn (c : Nat) : Option StreamResult × Option GoError :=
  (some { Call := c, StreamCap := 10 }, none)

/-- What `TabletConn.Begin` returns for an answer of the call. -/
def beginReturn : Except GoError Int → Option GoError
  | .error e => some e
  | .ok _ => none

/-- A `Balancer.Get` event. -/
def Event.isBalancerGet : Event → Bool
  | .balancerGet _ => true
  | _ => false

/-- The address of a `Balancer.MarkDown` event. -/
def Event.markDownAddr : Event → Option String
  | .markDown a => some a
  | _ => none

/-- How many candidates were drawn from the Balancer in a log. -/
def drawCount (l : List Event) : Nat :=
  l.countP Event.isBalancerGet

/-- The addresses marked down in a log, in order. -/
def markDowns (l : List Event) : List String :=
  l.filterMap Event.markDownAddr

/-- A dial event (`bsonrpc.DialHTTP`). -/
def Event.isDialHTTP : Event → Bool
  | .dialHTTP _ _ => true
  | _ => false

/-- How many dials were made in a log. -/
def dialCount (l : List Event) : Nat :=
  l.countP Event.isDialHTTP

/-- The value of `lastError` in `connect` after the dials of `ds` (address and
error of each) have failed, starting from `lastError`. -/
def lastDialError (ds : List (String × GoError)) (lastError : Option GoError) : Option GoError :=
  match ds.getLast? with
  | some d => some d.2
  | none => lastError

/-- The connection after `mustReturn` has torn the session down. -/
def tornDown (sdc : ShardConn) : ShardConn :=
  { sdc with address := "", conn := none }

/-- The log after `mustReturn` has torn the session of client `c` down:
`MarkDown` of the address, then the close of the client. -/
def teardownLog (env : Env) (sdc : ShardConn) (c : TabletConn) (tr : List Event) : List Event :=
  tr ++ [Event.markDown sdc.address,
    Event.rpcClose c.rpcClient (env.rpcClose (tr ++ [Event.markDown sdc.address]) c.rpcClient)]

/-! ## Scenarios -/

/-- A client with rpc client 1, session id 7 and the given transaction id. -/
def sampleConn (tid : Int) : TabletConn :=
  { rpcClient := 1, TransactionId := tid, ConnectionId := 0, SessionId := 7 }

/-- The client a dial returns for rpc client `client` and session id `sid`. -/
def dialledConn (client : Nat) (sid : Int) : TabletConn :=
  { rpcClient := client, TransactionId := 0, ConnectionId := 0, SessionId := sid }

/-- A connection to `ks.0.master` holding `sampleConn tid` at address `A`. -/
def heldConn (tid : Int) (retryCount : Int) : ShardConn :=
  { address := "A", keyspace := "ks", shard := "0", tabletType := "master",
    retryCount := retryCount, conn := some (sampleConn tid) }

/-- Collaborators that never fail: the Balancer yields `B`, the dial gives rpc
client 2 and session 8, `Begin` answers transaction id 5. -/
def envHealthy : Env :=
  { balancerGet := fun _ => .ok "B"
    dialHTTP := fun _ _ => .ok 2
    dialAuthHTTP := fun _ _ _ _ => .ok 2
    getSessionId := fun _ _ _ _ => .ok 8
    rpcClose := fun _ _ => none
    rpcExecute := fun _ _ _ => .ok { Rows := [] }
    rpcStreamGo := fun _ _ _ => 0
    rpcBegin := fun _ _ _ => .ok 5
    rpcCommit := fun _ _ _ => none
    rpcRollback := fun _ _ _ => none }

/-- As `envHealthy`, but every `Execute` and every `Begin` call fails with the
transport error `EOF`. -/
def envCallsFail : Env :=
  { envHealthy with
    rpcExecute := fun _ _ _ => .error (.other "EOF")
    rpcBegin := fun _ _ _ => .error (.other "EOF") }

/-- As `envHealthy`, but `Execute` and `Begin` answer with a `ServerError`. -/
def envServerError : Env :=
  { envHealthy with
    rpcExecute := fun _ _ _ => .error (.serverError "syntax error")
    rpcBegin := fun _ _ _ => .error (.serverError "too many transactions") }

/-- As `envHealthy`, but `Commit` and `Rollback` fail with the transport error `EOF`. -/
def envCommitFails : Env :=
  { envHealthy with
    rpcCommit := fun _ _ _ => some (.other "EOF")
    rpcRollback := fun _ _ _ => some (.other "EOF") }

/-- As `envHealthy`, but the first two `Execute` calls and the first two
`Begin` calls fail with the transport error `EOF`; every later one succeeds. -/
def envTwoFaults : Env :=
  { envHealthy with
    rpcExecute := fun log _ _ =>
      if (executeResults log).length < 2 then .error (.other "EOF") else .ok { Rows := [] }
    rpcBegin := fun log _ _ =>
      if (beginResults log).length < 2 then .error (.other "EOF") else .ok 5 }

/-- The Balancer yields `A`, `B`, `C` in order (then `C` again); only the dial
of `C` succeeds. -/
def envABC : Env :=
  { envHealthy with
    balancerGet := fun log =>
      match drawCount log with
      | 0 => .ok "A"
      | 1 => .ok "B"
      | _ => .ok "C"
    dialHTTP := fun _ addr =>
      if addr = "C" then .ok 3 else .error (.other "connection refused") }

/-- The operations of a `ShardConn` (`connect` is the internal one). -/
inductive Op where
  | connect
  | close
  | execDirect (query : String) (bindVars : List (String × String))
  | execStream (query : String) (bindVars : List (String × String))
  | begin
  | commit
  | rollback

/-- One operation on a connection and its log; the value returned is dropped,
`none` is a nil-pointer fault. -/
def Op.run (env : Env) : Op → ShardConn × List Event → Option (ShardConn × List Event)
  | .connect, st => some (st.1.connect env st.2).2
  | .close, st => some (st.1.Close env st.2).2
  | .execDirect q bv, st => (st.1.ExecDirect env q bv st.2).map Prod.snd
  | .execStream q bv, st => (st.1.ExecStream env q bv st.2).map Prod.snd
  | .begin, st => (st.1.Begin env st.2).map Prod.snd
  | .commit, st => (st.1.Commit env st.2).map Prod.snd
  | .rollback, st => (st.1.Rollback env st.2).map Prod.snd

/-- A sequence of operations, one after the other. -/
def runOps (env : Env) : List Op → ShardConn × List Event → Option (ShardConn × List Event)
  | [], st => some st
  | op :: ops, st =>
    match op.run env st with
    | none => none
    | some st1 => runOps env ops st1

/-- The address and the client go together: without client the address is
empty, with a client the address is one the Balancer has yielded and whose dial
has succeeded. -/
def AddrInv (env : Env) (sdc : ShardConn) : Prop :=
  (sdc.conn = none → sdc.address = "") ∧
    (sdc.conn ≠ none →
      (∃ l, env.balancerGet l = .ok sdc.address) ∧
        ∃ l cl, env.dialHTTP l sdc.address = .ok cl)

/-- Modelled from the spec: the dial primitive `bsonrpc.DialHTTP` is not among
the sources; an address is "an opaque host:port-style string passed to the dial
primitive", and the dial of the empty string never succeeds (`net.Dial` answers
"missing address"). -/
def DialRejectsEmpty (env : Env) : Prop :=
  ∀ l cl, env.dialHTTP l "" ≠ .ok cl

/-- The Balancer yields the empty string on the first draw and `B` afterwards;
the dial of the empty string fails with "missing address", every other dial
succeeds. -/
def envEmptyThenB : Env :=
  { envHealthy with
    balancerGet := fun log =>
      match drawCount log with
      | 0 => .ok ""
      | _ => .ok "B"
    dialHTTP := fun _ addr =>
      if addr = "" then .error (.other "dial tcp: missing address") else .ok 2 }

/-- The Balancer yields `A`, `B`, `C` in order (then `C` again) and every dial
fails: `connection refused` for `A` and `B`, `timeout` for `C`. -/
def envDialsFail : Env :=
  { envHealthy with
    balancerGet := fun log =>
      match drawCount log with
      | 0 => .ok "A"
      | 1 => .ok "B"
      | _ => .ok "C"
    dialHTTP := fun _ addr =>
      if addr = "C" then .error (.other "timeout") else .error (.other "connection refused") }

/-- The Balancer yields `A` on the first draw and fails on every later one;
every dial fails. -/
def envSelectorFails : Env :=
  { envHealthy with
    balancerGet := fun log =>
      match drawCount log with
      | 0 => .ok "A"
      | _ => .error (.other "no available addresses")
    dialHTTP := fun _ _ => .error (.other "connection refused") }

/-- As `envHealthy`, but the first `Execute` call and the first `Begin` call
fail with the transport error `EOF`. -/
def envOneFault : Env :=
  { envHealthy with
    rpcExecute := fun log _ _ =>
      if (executeResults log).length < 1 then .error (.other "EOF") else .ok { Rows := [] }
    rpcBegin := fun log _ _ =>
      if (beginResults log).length < 1 then .error (.other "EOF") else .ok 5 }

/-- As `envOneFault`, but the Balancer yields `A` on the first draw and `B`
afterwards, and the dial of `A` fails. -/
def envReyield : Env :=
  { envOneFault with
    balancerGet := fun log =>
      match drawCount log with
      | 0 => .ok "A"
      | _ => .ok "B"
    dialHTTP := fun _ addr =>
      if addr = "A" then .error (.other "connection refused") else .ok 2 }

/-! ## Basic facts about the client-side pieces -/

/-- What a successful `DialTablet` (without credentials) returns and logs. -/
theorem DialTablet_ok (env : Env) (tr : List Event) (addr ks sh : String) (c : TabletConn)
    (tr2 : List Event) (h : DialTablet env tr addr ks sh "" "" false = (.ok c, tr2)) :
    c.TransactionId = 0 ∧ c.ConnectionId = 0 ∧
      env.dialHTTP tr addr = .ok c.rpcClient ∧
      tr2 = tr ++ [Event.dialHTTP addr (.ok c.rpcClient),
        Event.getSessionId c.rpcClient ks sh (.ok c.SessionId)] := by
  unfold DialTablet at h
  simp only [ne_eq, not_true_eq_false, if_false] at h
  cases hd : env.dialHTTP tr addr with
  | error e => rw [hd] at h; simp at h
  | ok client =>
    rw [hd] at h
    simp only at h
    cases hs : env.getSessionId (tr ++ [Event.dialHTTP addr (.ok client)]) client ks sh with
    | error e => rw [hs] at h; simp at h
    | ok sid =>
      rw [hs] at h
      simp only [Prod.mk.injEq, Except.ok.injEq] at h
      obtain ⟨hc, ht⟩ := h
      subst hc
      simp [← ht]

/-- What a failed `DialTablet` (without credentials) logs: a failed dial, or a
successful dial followed by a failed handshake. -/
theorem DialTablet_error (env : Env) (tr : List Event) (addr ks sh : String) (e : GoError)
    (tr2 : List Event) (h : DialTablet env tr addr ks sh "" "" false = (.error e, tr2)) :
    tr2 = tr ++ [Event.dialHTTP addr (.error e)] ∨
      ∃ client, tr2 = tr ++ [Event.dialHTTP addr (.ok client),
        Event.getSessionId client ks sh (.error e)] := by
  unfold DialTablet at h
  simp only [ne_eq, not_true_eq_false, if_false] at h
  cases hd : env.dialHTTP tr addr with
  | error e1 =>
    rw [hd] at h
    simp only [Prod.mk.injEq, Except.error.injEq] at h
    obtain ⟨he, ht⟩ := h
    subst he
    exact Or.inl ht.symm
  | ok client =>
    rw [hd] at h
    simp only at h
    cases hs : env.getSessionId (tr ++ [Event.dialHTTP addr (.ok client)]) client ks sh with
    | ok sid => rw [hs] at h; simp at h
    | error e1 =>
      rw [hs] at h
      simp only [Prod.mk.injEq, Except.error.injEq] at h
      obtain ⟨he, ht⟩ := h
      subst he
      exact Or.inr ⟨client, by simp [← ht]⟩

/-- The log positions touched by `connect`: a successful `connect` on a
connection stores a freshly dialled client with transaction id 0; a failed one
leaves the connection as it was. -/
theorem connectLoop_cases (env : Env) (n : Nat) (lastError : Option GoError) (sdc : ShardConn)
    (tr : List Event) :
    (∃ e, (connectLoop env n lastError sdc tr).1 = some e ∧
        (connectLoop env n lastError sdc tr).2.1 = sdc) ∨
      ((connectLoop env n lastError sdc tr).1 = none ∧
        ∃ (c : TabletConn) (addr : String) (suf : List Event),
          (connectLoop env n lastError sdc tr).2.1 = { sdc with address := addr, conn := some c } ∧
          c.TransactionId = 0 ∧ c.ConnectionId = 0 ∧
          (connectLoop env n lastError sdc tr).2.2 = tr ++ suf ∧
          Event.balancerGet (.ok addr) ∈ suf ∧
          Event.dialHTTP addr (.ok c.rpcClient) ∈ suf) := by
  induction n generalizing lastError tr with
  | zero => exact Or.inl ⟨_, rfl, rfl⟩
  | succ n ih =>
    unfold connectLoop
    cases hg : env.balancerGet tr with
    | error err => exact Or.inl ⟨err, rfl, rfl⟩
    | ok addr =>
      simp only
      rcases hd : DialTablet env (tr ++ [Event.balancerGet (.ok addr)]) addr sdc.keyspace
        sdc.shard "" "" false with ⟨r, tr2⟩
      cases r with
      | error err =>
        simp only
        rcases ih (some err) (tr2 ++ [Event.markDown addr]) with h | ⟨h1, c, a, suf, h2, h3, h4, h5, h6, h7⟩
        · exact Or.inl h
        · refine Or.inr ⟨h1, c, a, ?_, h2, h3, h4, ?_, ?_, ?_⟩
          · exact (tr2.drop tr.length) ++ [Event.markDown addr] ++ suf
          · rw [h5]
            rcases DialTablet_error env _ addr _ _ err tr2 hd with ht | ⟨cl, ht⟩ <;>
              simp [ht]
          · simp [h6]
          · simp [h7]
      | ok c =>
        obtain ⟨h3, h4, h5, ht⟩ := DialTablet_ok env _ addr _ _ c tr2 hd
        refine Or.inr ⟨rfl, c, addr, ?_, rfl, h3, h4, ?_, ?_, ?_⟩
        · exact [Event.balancerGet (.ok addr), Event.dialHTTP addr (.ok c.rpcClient),
            Event.getSessionId c.rpcClient sdc.keyspace sdc.shard (.ok c.SessionId)]
        · simp [ht]
        · simp
        · simp

/-- Everything `connectLoop` writes is a `Get`, a `MarkDown`, a dial or a handshake. -/
theorem connectLoop_log (env : Env) (n : Nat) (lastError : Option GoError) (sdc : ShardConn)
    (tr : List Event) :
    ∃ suf, (connectLoop env n lastError sdc tr).2.2 = tr ++ suf ∧
      ∀ ev ∈ suf, Event.isDial ev = true := by
  induction n generalizing lastError tr with
  | zero => exact ⟨[], by simp [connectLoop], by simp⟩
  | succ n ih =>
    unfold connectLoop
    cases hg : env.balancerGet tr with
    | error err => exact ⟨[Event.balancerGet (.error err)], rfl, by simp [Event.isDial]⟩
    | ok addr =>
      simp only
      rcases hd : DialTablet env (tr ++ [Event.balancerGet (.ok addr)]) addr sdc.keyspace
        sdc.shard "" "" false with ⟨r, tr2⟩
      cases r with
      | error err =>
        simp only
        obtain ⟨suf, h1, h2⟩ := ih (some err) (tr2 ++ [Event.markDown addr])
        rcases DialTablet_error env _ addr _ _ err tr2 hd with ht | ⟨cl, ht⟩
        · refine ⟨[Event.balancerGet (.ok addr), Event.dialHTTP addr (.error err),
            Event.markDown addr] ++ suf, by subst ht; simpa using h1, ?_⟩
          intro ev hev
          simp only [List.mem_append, List.mem_cons, List.mem_singleton, List.not_mem_nil,
            or_false] at hev
          rcases hev with (h | h | h) | h
          · simp [h, Event.isDial]
          · simp [h, Event.isDial]
          · simp [h, Event.isDial]
          · exact h2 ev h
        · refine ⟨[Event.balancerGet (.ok addr), Event.dialHTTP addr (.ok cl),
            Event.getSessionId cl sdc.keyspace sdc.shard (.error err),
            Event.markDown addr] ++ suf, by subst ht; simpa using h1, ?_⟩
          intro ev hev
          simp only [List.mem_append, List.mem_cons, List.mem_singleton, List.not_mem_nil,
            or_false] at hev
          rcases hev with (h | h | h | h) | h
          · simp [h, Event.isDial]
          · simp [h, Event.isDial]
          · simp [h, Event.isDial]
          · simp [h, Event.isDial]
          · exact h2 ev h
      | ok c =>
        obtain ⟨_, _, _, ht⟩ := DialTablet_ok env _ addr _ _ c tr2 hd
        refine ⟨[Event.balancerGet (.ok addr), Event.dialHTTP addr (.ok c.rpcClient),
          Event.getSessionId c.rpcClient sdc.keyspace sdc.shard (.ok c.SessionId)],
          by simp [ht], ?_⟩
        intro ev hev
        simp only [List.mem_cons, List.mem_singleton, List.not_mem_nil, or_false] at hev
        rcases hev with h | h | h <;> simp [h, Event.isDial]

/-- A log of dial events holds no `Execute`, `Begin` or `StreamExecute` call and
no entry of `connect`. -/
theorem dial_log_counts (suf : List Event) (h : ∀ ev ∈ suf, Event.isDial ev = true) :
    executeResults suf = [] ∧ beginResults suf = [] ∧ streamCalls suf = [] ∧
      connectCount suf = 0 := by
  refine ⟨?_, ?_, ?_, ?_⟩
  · simp only [executeResults, List.filterMap_eq_nil_iff]
    intro ev hev
    have := h ev hev
    cases ev <;> simp_all [Event.isDial, Event.executeRes]
  · simp only [beginResults, List.filterMap_eq_nil_iff]
    intro ev hev
    have := h ev hev
    cases ev <;> simp_all [Event.isDial, Event.beginRes]
  · simp only [streamCalls, List.filterMap_eq_nil_iff]
    intro ev hev
    have := h ev hev
    cases ev <;> simp_all [Event.isDial, Event.streamCall]
  · simp only [connectCount, List.countP_eq_zero]
    intro ev hev
    have := h ev hev
    cases ev <;> simp_all [Event.isDial, Event.isConnect]

/-- The head of a loop body: it only extends the log, with no call and at most
one entry of `connect`; when it returns no error a client is held. -/
theorem ensureConn_spec (env : Env) (sdc : ShardConn) (tr : List Event) :
    ∃ suf, (sdc.ensureConn env tr).2.2 = tr ++ suf ∧
      executeResults suf = [] ∧ beginResults suf = [] ∧ streamCalls suf = [] ∧
      connectCount suf ≤ 1 ∧
      ((sdc.ensureConn env tr).1 = none → ∃ c, (sdc.ensureConn env tr).2.1.conn = some c) := by
  unfold ShardConn.ensureConn
  cases hc : sdc.conn with
  | some c =>
    exact ⟨[], by simp, rfl, rfl, rfl, by simp [connectCount], fun _ => ⟨c, hc⟩⟩
  | none =>
    simp only [ShardConn.connect]
    obtain ⟨suf, h1, h2⟩ := connectLoop_log env sdc.retryCount.toNat none sdc (tr ++ [Event.connect])
    obtain ⟨g1, g2, g3, g4⟩ := dial_log_counts suf h2
    refine ⟨Event.connect :: suf, by simp [h1], ?_, ?_, ?_, ?_, ?_⟩
    · simpa [executeResults, Event.executeRes] using g1
    · simpa [beginResults, Event.beginRes] using g2
    · simpa [streamCalls, Event.streamCall] using g3
    · simp only [connectCount] at g4 ⊢
      simp [Event.isConnect, g4]
    · intro hn
      rcases connectLoop_cases env sdc.retryCount.toNat none sdc (tr ++ [Event.connect]) with
        ⟨e, h3, _⟩ | ⟨_, c, addr, _, h4, _⟩
      · rw [h3] at hn; simp at hn
      · exact ⟨c, by rw [h4]⟩

/-- The policy `mustReturn` only extends the log, with no call and no entry of
`connect`. -/
theorem mustReturn_log (env : Env) (err : Option GoError) (sdc : ShardConn) (tr : List Event) :
    ∃ suf, (sdc.mustReturn env err tr).2.2 = tr ++ suf ∧
      executeResults suf = [] ∧ beginResults suf = [] ∧ streamCalls suf = [] ∧
      connectCount suf = 0 := by
  unfold ShardConn.mustReturn
  cases err with
  | none => exact ⟨[], by simp, rfl, rfl, rfl, rfl⟩
  | some e =>
    cases he : e.isServerError with
    | true => exact ⟨[], by simp [he], rfl, rfl, rfl, rfl⟩
    | false =>
      cases hc : sdc.conn with
      | none =>
        exact ⟨[Event.markDown sdc.address], by simp [he, ShardConn.Close, hc], rfl, rfl, rfl, rfl⟩
      | some c =>
        exact ⟨[Event.markDown sdc.address, Event.rpcClose c.rpcClient
          (env.rpcClose (tr ++ [Event.markDown sdc.address]) c.rpcClient)],
          by simp [he, ShardConn.Close, hc, TabletConn.Close], rfl, rfl, rfl, rfl⟩

/-- The value and the log of `TabletConn.ExecDirect`, by the answer of the call. -/
theorem TabletConn.ExecDirect_eq (env : Env) (c : TabletConn) (q : String)
    (bv : List (String × String)) (tr : List Event) :
    c.ExecDirect env q bv tr =
      ((execReturn (env.rpcExecute tr c.rpcClient (c.query q bv))).1,
        (execReturn (env.rpcExecute tr c.rpcClient (c.query q bv))).2,
        tr ++ [Event.execute c.rpcClient (c.query q bv)
          (env.rpcExecute tr c.rpcClient (c.query q bv))]) := by
  cases h : env.rpcExecute tr c.rpcClient (c.query q bv) <;>
    simp [TabletConn.ExecDirect, h, execReturn]

/-- The `Execute` answers of a concatenated log. -/
theorem executeResults_append (a b : List Event) :
    executeResults (a ++ b) = executeResults a ++ executeResults b := by
  simp [executeResults]

/-- The `Begin` answers of a concatenated log. -/
theorem beginResults_append (a b : List Event) :
    beginResults (a ++ b) = beginResults a ++ beginResults b := by
  simp [beginResults]

/-- The `StreamExecute` handles of a concatenated log. -/
theorem streamCalls_append (a b : List Event) :
    streamCalls (a ++ b) = streamCalls a ++ streamCalls b := by
  simp [streamCalls]

/-- The entries of `connect` of a concatenated log. -/
theorem connectCount_append (a b : List Event) :
    connectCount (a ++ b) = connectCount a + connectCount b := by
  simp [connectCount]

/-- The last element of a list with a head, by whether the tail is empty. -/
theorem getLast?_cons_of_length {α : Type} (a r : α) (l : List α)
    (h : (a :: l).getLast? = some r) : (l = [] ∧ r = a) ∨ (l ≠ [] ∧ l.getLast? = some r) := by
  cases l with
  | nil => left; simpa [eq_comm] using h
  | cons b t => right; exact ⟨by simp, by simpa [List.getLast?_cons_cons] using h⟩

/-- The loop of `ExecDirect` with `n` iterations left: it returns, it issues at
most `n` queries and enters `connect` at most `n` times, and when all `n`
queries were issued the last answer is what is returned. -/
theorem execDirectLoop_spec (env : Env) (q : String) (bv : List (String × String)) (n : Nat)
    (ret : Option QueryResult × Option GoError) (sdc : ShardConn) (tr : List Event) :
    ∃ ret1 sdc1 suf, execDirectLoop env q bv n ret sdc tr = some (ret1, sdc1, tr ++ suf) ∧
      (executeResults suf).length ≤ n ∧ connectCount suf ≤ n ∧
      (n = 0 → ret1 = ret) ∧
      (∀ r, (executeResults suf).length = n → (executeResults suf).getLast? = some r →
        ret1 = execReturn r) := by
  induction n generalizing ret sdc tr with
  | zero => exact ⟨ret, sdc, [], by simp [execDirectLoop], by simp [executeResults],
      by simp [connectCount], fun _ => rfl, by simp [executeResults]⟩
  | succ n ih =>
    obtain ⟨suf0, h0, e0, _, _, c0, k0⟩ := ensureConn_spec env sdc tr
    unfold execDirectLoop
    rcases hE : sdc.ensureConn env tr with ⟨eo, sdc1, tr1⟩
    rw [hE] at h0 k0
    simp only at h0 k0
    subst h0
    cases eo with
    | some err =>
      exact ⟨_, _, suf0, rfl, by simp [e0], by omega, by simp, by simp [e0]⟩
    | none =>
      obtain ⟨c, hc⟩ := k0 rfl
      simp only [hc, TabletConn.ExecDirect_eq, Prod.mk.eta]
      generalize hr : env.rpcExecute (tr ++ suf0) c.rpcClient (c.query q bv) = r
      obtain ⟨sufm, hm, em, _, _, cm⟩ := mustReturn_log env (execReturn r).2 sdc1
        (tr ++ suf0 ++ [Event.execute c.rpcClient (c.query q bv) r])
      rcases hM : sdc1.mustReturn env (execReturn r).2
        (tr ++ suf0 ++ [Event.execute c.rpcClient (c.query q bv) r]) with ⟨b, sdc2, tr3⟩
      rw [hM] at hm
      simp only at hm
      subst hm
      have hex : executeResults (suf0 ++ [Event.execute c.rpcClient (c.query q bv) r] ++ sufm)
          = [r] := by
        rw [executeResults_append, executeResults_append, e0, em]
        rfl
      have hcc : connectCount (suf0 ++ [Event.execute c.rpcClient (c.query q bv) r] ++ sufm)
          = connectCount suf0 := by
        rw [connectCount_append, connectCount_append, cm]
        rfl
      cases b with
      | true =>
        refine ⟨execReturn r, sdc2,
          suf0 ++ [Event.execute c.rpcClient (c.query q bv) r] ++ sufm, ?_, ?_, ?_, ?_, ?_⟩
        · simp
        · rw [hex]; simp
        · rw [hcc]; omega
        · simp
        · intro r1 _ h2
          rw [hex] at h2
          simp at h2
          rw [h2]
      | false =>
        obtain ⟨ret1, sdc3, suf1, g1, g2, g3, g4, g5⟩ := ih (execReturn r) sdc2
          (tr ++ suf0 ++ [Event.execute c.rpcClient (c.query q bv) r] ++ sufm)
        have hex2 : executeResults
            (suf0 ++ [Event.execute c.rpcClient (c.query q bv) r] ++ sufm ++ suf1)
            = r :: executeResults suf1 := by
          rw [executeResults_append, hex]; rfl
        have hcc2 : connectCount
            (suf0 ++ [Event.execute c.rpcClient (c.query q bv) r] ++ sufm ++ suf1)
            = connectCount suf0 + connectCount suf1 := by
          rw [connectCount_append, hcc]
        refine ⟨ret1, sdc3,
          suf0 ++ [Event.execute c.rpcClient (c.query q bv) r] ++ sufm ++ suf1, ?_, ?_, ?_, ?_, ?_⟩
        · simp only [Bool.false_eq_true, if_false]
          rw [g1]; simp
        · rw [hex2]; simp; omega
        · rw [hcc2]; omega
        · simp
        · intro r1 h1 h2
          rw [hex2] at h1 h2
          simp only [List.length_cons, add_left_inj] at h1
          rcases getLast?_cons_of_length r r1 _ h2 with ⟨h3, h4⟩ | ⟨h3, h4⟩
          · have hn : n = 0 := by rw [← h1, h3]; rfl
            rw [g4 hn, h4]
          · exact g5 r1 h1 h4

/-- The value and the log of `TabletConn.Begin`, by the answer of the call. -/
theorem TabletConn.Begin_eq (env : Env) (c : TabletConn) (tr : List Event) :
    (c.Begin env tr).2.1 = beginReturn (env.rpcBegin tr c.rpcClient c.toSession) ∧
      (c.Begin env tr).2.2 =
        tr ++ [Event.begin c.rpcClient c.toSession (env.rpcBegin tr c.rpcClient c.toSession)] := by
  cases h : env.rpcBegin tr c.rpcClient c.toSession <;>
    simp [TabletConn.Begin, h, beginReturn]

/-- The loop of `ExecStream` with `n` iterations left: it returns, it starts at
most `n` streaming calls and enters `connect` at most `n` times, and when all
`n` calls were started the last one is what is returned. -/
theorem execStreamLoop_spec (env : Env) (q : String) (bv : List (String × String)) (n : Nat)
    (ret : Option StreamResult × Option GoError) (sdc : ShardConn) (tr : List Event) :
    ∃ ret1 sdc1 suf, execStreamLoop env q bv n ret sdc tr = some (ret1, sdc1, tr ++ suf) ∧
      (streamCalls suf).length ≤ n ∧ connectCount suf ≤ n ∧
      (n = 0 → ret1 = ret) ∧
      (∀ k, (streamCalls suf).length = n → (streamCalls suf).getLast? = some k →
        ret1 = streamReturn k) := by
  induction n generalizing ret sdc tr with
  | zero => exact ⟨ret, sdc, [], by simp [execStreamLoop], by simp [streamCalls],
      by simp [connectCount], fun _ => rfl, by simp [streamCalls]⟩
  | succ n ih =>
    obtain ⟨suf0, h0, _, _, e0, c0, k0⟩ := ensureConn_spec env sdc tr
    unfold execStreamLoop
    rcases hE : sdc.ensureConn env tr with ⟨eo, sdc1, tr1⟩
    rw [hE] at h0 k0
    simp only at h0 k0
    subst h0
    cases eo with
    | some err =>
      exact ⟨_, _, suf0, rfl, by simp [e0], by omega, by simp, by simp [e0]⟩
    | none =>
      obtain ⟨c, hc⟩ := k0 rfl
      simp only [hc, TabletConn.ExecStream]
      generalize hr : env.rpcStreamGo (tr ++ suf0) c.rpcClient (c.query q bv) = k
      obtain ⟨sufm, hm, _, _, em, cm⟩ := mustReturn_log env none sdc1
        (tr ++ suf0 ++ [Event.streamExecute c.rpcClient (c.query q bv) k])
      rcases hM : sdc1.mustReturn env none
        (tr ++ suf0 ++ [Event.streamExecute c.rpcClient (c.query q bv) k]) with ⟨b, sdc2, tr3⟩
      rw [hM] at hm
      simp only at hm
      subst hm
      have hex : streamCalls (suf0 ++ [Event.streamExecute c.rpcClient (c.query q bv) k] ++ sufm)
          = [k] := by
        rw [streamCalls_append, streamCalls_append, e0, em]
        rfl
      have hcc : connectCount
          (suf0 ++ [Event.streamExecute c.rpcClient (c.query q bv) k] ++ sufm)
          = connectCount suf0 := by
        rw [connectCount_append, connectCount_append, cm]
        rfl
      cases b with
      | true =>
        refine ⟨streamReturn k, sdc2,
          suf0 ++ [Event.streamExecute c.rpcClient (c.query q bv) k] ++ sufm, ?_, ?_, ?_, ?_, ?_⟩
        · simp [streamReturn]
        · rw [hex]; simp
        · rw [hcc]; omega
        · simp
        · intro k1 _ h2
          rw [hex] at h2
          simp at h2
          rw [h2]
      | false =>
        obtain ⟨ret1, sdc3, suf1, g1, g2, g3, g4, g5⟩ := ih (streamReturn k) sdc2
          (tr ++ suf0 ++ [Event.streamExecute c.rpcClient (c.query q bv) k] ++ sufm)
        have hex2 : streamCalls
            (suf0 ++ [Event.streamExecute c.rpcClient (c.query q bv) k] ++ sufm ++ suf1)
            = k :: streamCalls suf1 := by
          rw [streamCalls_append, hex]; rfl
        have hcc2 : connectCount
            (suf0 ++ [Event.streamExecute c.rpcClient (c.query q bv) k] ++ sufm ++ suf1)
            = connectCount suf0 + connectCount suf1 := by
          rw [connectCount_append, hcc]
        refine ⟨ret1, sdc3,
          suf0 ++ [Event.streamExecute c.rpcClient (c.query q bv) k] ++ sufm ++ suf1,
          ?_, ?_, ?_, ?_, ?_⟩
        · simp only [Bool.false_eq_true, if_false]
          rw [show ((some ({ Call := k, StreamCap := 10 } : StreamResult), (none : Option GoError))
            = streamReturn k) from rfl, g1]
          simp
        · rw [hex2]; simp; omega
        · rw [hcc2]; omega
        · simp
        · intro k1 h1 h2
          rw [hex2] at h1 h2
          simp only [List.length_cons, add_left_inj] at h1
          rcases getLast?_cons_of_length k k1 _ h2 with ⟨h3, h4⟩ | ⟨h3, h4⟩
          · have hn : n = 0 := by rw [← h1, h3]; rfl
            rw [g4 hn, h4]
          · exact g5 k1 h1 h4

/-- The loop of `Begin` with `n` iterations left: it returns, it issues at most
`n` begin calls and enters `connect` at most `n` times, and when all `n` calls
were issued the error of the last one is what is returned. -/
theorem beginLoop_spec (env : Env) (n : Nat) (ret : Option GoError) (sdc : ShardConn)
    (tr : List Event) :
    ∃ ret1 sdc1 suf, beginLoop env n ret sdc tr = some (ret1, sdc1, tr ++ suf) ∧
      (beginResults suf).length ≤ n ∧ connectCount suf ≤ n ∧
      (n = 0 → ret1 = ret) ∧
      (∀ r, (beginResults suf).length = n → (beginResults suf).getLast? = some r →
        ret1 = beginReturn r) := by
  induction n generalizing ret sdc tr with
  | zero => exact ⟨ret, sdc, [], by simp [beginLoop], by simp [beginResults],
      by simp [connectCount], fun _ => rfl, by simp [beginResults]⟩
  | succ n ih =>
    obtain ⟨suf0, h0, _, e0, _, c0, k0⟩ := ensureConn_spec env sdc tr
    unfold beginLoop
    rcases hE : sdc.ensureConn env tr with ⟨eo, sdc1, tr1⟩
    rw [hE] at h0 k0
    simp only at h0 k0
    subst h0
    cases eo with
    | some err =>
      exact ⟨_, _, suf0, rfl, by simp [e0], by omega, by simp, by simp [e0]⟩
    | none =>
      obtain ⟨c, hc⟩ := k0 rfl
      obtain ⟨hb1, hb2⟩ := TabletConn.Begin_eq env c (tr ++ suf0)
      simp only [hc, hb1, hb2]
      generalize hr : env.rpcBegin (tr ++ suf0) c.rpcClient c.toSession = r
      generalize hsd : ({ sdc1 with conn := some (c.Begin env (tr ++ suf0)).1 } : ShardConn) = sdcb
      obtain ⟨sufm, hm, _, em, _, cm⟩ := mustReturn_log env (beginReturn r) sdcb
        (tr ++ suf0 ++ [Event.begin c.rpcClient c.toSession r])
      rcases hM : sdcb.mustReturn env (beginReturn r)
        (tr ++ suf0 ++ [Event.begin c.rpcClient c.toSession r]) with ⟨b, sdc2, tr3⟩
      rw [hM] at hm
      simp only at hm
      subst hm
      have hex : beginResults (suf0 ++ [Event.begin c.rpcClient c.toSession r] ++ sufm)
          = [r] := by
        rw [beginResults_append, beginResults_append, e0, em]
        rfl
      have hcc : connectCount (suf0 ++ [Event.begin c.rpcClient c.toSession r] ++ sufm)
          = connectCount suf0 := by
        rw [connectCount_append, connectCount_append, cm]
        rfl
      cases b with
      | true =>
        refine ⟨beginReturn r, sdc2,
          suf0 ++ [Event.begin c.rpcClient c.toSession r] ++ sufm, ?_, ?_, ?_, ?_, ?_⟩
        · simp
        · rw [hex]; simp
        · rw [hcc]; omega
        · simp
        · intro r1 _ h2
          rw [hex] at h2
          simp at h2
          rw [h2]
      | false =>
        obtain ⟨ret1, sdc3, suf1, g1, g2, g3, g4, g5⟩ := ih (beginReturn r) sdc2
          (tr ++ suf0 ++ [Event.begin c.rpcClient c.toSession r] ++ sufm)
        have hex2 : beginResults
            (suf0 ++ [Event.begin c.rpcClient c.toSession r] ++ sufm ++ suf1)
            = r :: beginResults suf1 := by
          rw [beginResults_append, hex]; rfl
        have hcc2 : connectCount
            (suf0 ++ [Event.begin c.rpcClient c.toSession r] ++ sufm ++ suf1)
            = connectCount suf0 + connectCount suf1 := by
          rw [connectCount_append, hcc]
        refine ⟨ret1, sdc3,
          suf0 ++ [Event.begin c.rpcClient c.toSession r] ++ sufm ++ suf1, ?_, ?_, ?_, ?_, ?_⟩
        · simp only [Bool.false_eq_true, if_false]
          rw [g1]; simp
        · rw [hex2]; simp; omega
        · rw [hcc2]; omega
        · simp
        · intro r1 h1 h2
          rw [hex2] at h1 h2
          simp only [List.length_cons, add_left_inj] at h1
          rcases getLast?_cons_of_length r r1 _ h2 with ⟨h3, h4⟩ | ⟨h3, h4⟩
          · have hn : n = 0 := by rw [← h1, h3]; rfl
            rw [g4 hn, h4]
          · exact g5 r1 h1 h4

/-- C1. On a connection holding a client with a non-zero transaction id, when the
`Execute` call fails with an error that is not a `ServerError`, `ExecDirect`
returns `(nil, that error)` after exactly one query (no `connect`, no retry),
one `MarkDown` of the current address and one close of the client; the client
and the address are cleared, `inTransaction` is false, and whatever client a
later `connect` stores is freshly dialled with transaction id 0. -/
theorem c1_execDirect_fault_in_transaction (env : Env) (query : String)
    (bindVars : List (String × String)) (sdc : ShardConn) (tr : List Event) (c : TabletConn)
    (e : GoError) (hc : sdc.conn = some c) (htx : c.TransactionId ≠ 0)
    (hrpc : env.rpcExecute tr c.rpcClient (c.query query bindVars) = .error e)
    (hne : e.isServerError = false) :
    sdc.ExecDirect env query bindVars tr =
        some ((none, some e), { sdc with address := "", conn := none },
          tr ++ [Event.execute c.rpcClient (c.query query bindVars) (.error e),
            Event.markDown sdc.address,
            Event.rpcClose c.rpcClient
              (env.rpcClose (tr ++ [Event.execute c.rpcClient (c.query query bindVars) (.error e),
                Event.markDown sdc.address]) c.rpcClient)]) ∧
      ({ sdc with address := "", conn := none } : ShardConn).inTransaction = false ∧
      ∀ (env2 : Env) (tr2 : List Event) (c2 : TabletConn),
        (({ sdc with address := "", conn := none } : ShardConn).ensureConn env2 tr2).2.1.conn
            = some c2 →
          c2.TransactionId = 0 ∧
          ∃ (addr : String) (suf : List Event),
            (({ sdc with address := "", conn := none } : ShardConn).ensureConn env2 tr2).2.2
              = tr2 ++ suf ∧
            Event.dialHTTP addr (.ok c2.rpcClient) ∈ suf := by
  refine ⟨?_, rfl, ?_⟩
  · have hin : sdc.inTransaction = true := by
      simp [ShardConn.inTransaction, hc, htx]
    simp [ShardConn.ExecDirect, execDirectLoop, ShardConn.ensureConn, hc, TabletConn.ExecDirect,
      hrpc, ShardConn.mustReturn, hne, hin, ShardConn.Close, TabletConn.Close]
  · intro env2 tr2 c2 h
    simp only [ShardConn.ensureConn, ShardConn.connect] at h ⊢
    rcases connectLoop_cases env2 sdc.retryCount.toNat none
        { sdc with address := "", conn := none } (tr2 ++ [Event.connect]) with
      ⟨e2, _, h2⟩ | ⟨_, c3, addr, suf, h2, h3, _, h5, _, h7⟩
    · rw [h2] at h; simp at h
    · rw [h2] at h
      simp only [Option.some.injEq] at h
      subst h
      refine ⟨h3, addr, Event.connect :: suf, ?_, ?_⟩
      · rw [h5]; simp
      · simp [h7]

/-- C2. With an open transaction, `Commit` issues the commit call exactly once
and returns what it returned, and `Rollback` likewise with the rollback call:
the log grows by that single event (no `connect`, no `Get`, no dial, no
`MarkDown`, no second call). -/
theorem c2_commit_rollback_once (env : Env) (sdc : ShardConn) (tr : List Event)
    (h : sdc.inTransaction = true) :
    ∃ c, sdc.conn = some c ∧
      sdc.Commit env tr =
        some (env.rpcCommit tr c.rpcClient c.toSession,
          { sdc with conn := some { c with TransactionId := 0 } },
          tr ++ [Event.commit c.rpcClient c.toSession (env.rpcCommit tr c.rpcClient c.toSession)]) ∧
      sdc.Rollback env tr =
        some (env.rpcRollback tr c.rpcClient c.toSession,
          { sdc with conn := some { c with TransactionId := 0 } },
          tr ++ [Event.rollback c.rpcClient c.toSession
            (env.rpcRollback tr c.rpcClient c.toSession)]) := by
  cases hc : sdc.conn with
  | none => simp [ShardConn.inTransaction, hc] at h
  | some c =>
    refine ⟨c, rfl, ?_, ?_⟩
    · simp [ShardConn.Commit, h, hc, TabletConn.Commit]
    · simp [ShardConn.Rollback, h, hc, TabletConn.Rollback]

/-- C3. With an open transaction, after `Commit` or `Rollback` has returned
(with nil or with any error) the client is still held, its transaction id is 0,
its session id, connection id and rpc client are unchanged, and `inTransaction`
is false. -/
theorem c3_commit_rollback_resets (env : Env) (sdc : ShardConn) (tr : List Event)
    (c : TabletConn) (hc : sdc.conn = some c) (htx : c.TransactionId ≠ 0) :
    (∃ err sdc1 tr1 c1, sdc.Commit env tr = some (err, sdc1, tr1) ∧
        err = env.rpcCommit tr c.rpcClient c.toSession ∧
        sdc1.conn = some c1 ∧ c1.TransactionId = 0 ∧ c1.SessionId = c.SessionId ∧
        c1.ConnectionId = c.ConnectionId ∧ c1.rpcClient = c.rpcClient ∧
        sdc1.address = sdc.address ∧ sdc1.inTransaction = false) ∧
      (∃ err sdc1 tr1 c1, sdc.Rollback env tr = some (err, sdc1, tr1) ∧
        err = env.rpcRollback tr c.rpcClient c.toSession ∧
        sdc1.conn = some c1 ∧ c1.TransactionId = 0 ∧ c1.SessionId = c.SessionId ∧
        c1.ConnectionId = c.ConnectionId ∧ c1.rpcClient = c.rpcClient ∧
        sdc1.address = sdc.address ∧ sdc1.inTransaction = false) := by
  have hin : sdc.inTransaction = true := by
    simp [ShardConn.inTransaction, hc, htx]
  constructor
  · have h1 : sdc.Commit env tr = some (env.rpcCommit tr c.rpcClient c.toSession,
        { sdc with conn := some { c with TransactionId := 0 } },
        tr ++ [Event.commit c.rpcClient c.toSession
          (env.rpcCommit tr c.rpcClient c.toSession)]) := by
      simp [ShardConn.Commit, hin, hc, TabletConn.Commit]
    exact ⟨_, _, _, _, h1, rfl, rfl, rfl, rfl, rfl, rfl, rfl, by simp [ShardConn.inTransaction]⟩
  · have h1 : sdc.Rollback env tr = some (env.rpcRollback tr c.rpcClient c.toSession,
        { sdc with conn := some { c with TransactionId := 0 } },
        tr ++ [Event.rollback c.rpcClient c.toSession
          (env.rpcRollback tr c.rpcClient c.toSession)]) := by
      simp [ShardConn.Rollback, hin, hc, TabletConn.Rollback]
    exact ⟨_, _, _, _, h1, rfl, rfl, rfl, rfl, rfl, rfl, rfl, by simp [ShardConn.inTransaction]⟩

/-- C4. When a transaction is open, `Begin` returns the error
"cannot begin: already in transaction" and leaves the connection and the log
exactly as they were (no `Get`, no dial, no call, no `MarkDown`). -/
theorem c4_begin_in_transaction (env : Env) (sdc : ShardConn) (tr : List Event)
    (h : sdc.inTransaction = true) :
    sdc.Begin env tr =
      some (some (GoError.other "cannot begin: already in transaction"), sdc, tr) := by
  simp [ShardConn.Begin, h]

/-- C5. When no transaction is open (no client, or a client with transaction id
0), `Commit` and `Rollback` return the errors "cannot commit: not in
transaction" and "cannot rollback: not in transaction" and leave the connection
and the log exactly as they were. -/
theorem c5_commit_rollback_not_in_transaction (env : Env) (sdc : ShardConn) (tr : List Event)
    (h : sdc.conn = none ∨ ∃ c, sdc.conn = some c ∧ c.TransactionId = 0) :
    sdc.inTransaction = false ∧
      sdc.Commit env tr =
        some (some (GoError.other "cannot commit: not in transaction"), sdc, tr) ∧
      sdc.Rollback env tr =
        some (some (GoError.other "cannot rollback: not in transaction"), sdc, tr) := by
  have hin : sdc.inTransaction = false := by
    rcases h with h | ⟨c, h, h0⟩ <;> simp [ShardConn.inTransaction, h, *]
  exact ⟨hin, by simp [ShardConn.Commit, hin], by simp [ShardConn.Rollback, hin]⟩

/-- C6. Let the head of the first loop body leave the connection holding client
`c` (the connection itself when it already held one).  If the first `Execute`
call answers with a `ServerError`, `ExecDirect` returns `(nil, that error)` and
the log grows by that single call: no `MarkDown`, no close, no second call, and
the connection (client, address, identifiers) is as the head left it, whether
or not a transaction is open.  The same holds for `Begin` and the first `Begin`
call, which is only issued when no transaction is open. -/
theorem c6_server_error_verbatim (env : Env) (q : String) (bv : List (String × String))
    (sdc sdc1 : ShardConn) (tr tr1 : List Event) (c : TabletConn) (e : GoError)
    (hE : sdc.ensureConn env tr = (none, sdc1, tr1)) (hc : sdc1.conn = some c)
    (he : e.isServerError = true) :
    (sdc.conn ≠ none → sdc1 = sdc ∧ tr1 = tr) ∧
      (env.rpcExecute tr1 c.rpcClient (c.query q bv) = .error e →
        sdc.ExecDirect env q bv tr =
          some ((none, some e), sdc1,
            tr1 ++ [Event.execute c.rpcClient (c.query q bv) (.error e)])) ∧
      (sdc.inTransaction = false →
        env.rpcBegin tr1 c.rpcClient c.toSession = .error e →
        sdc.Begin env tr =
          some (some e, sdc1, tr1 ++ [Event.begin c.rpcClient c.toSession (.error e)])) := by
  refine ⟨?_, ?_, ?_⟩
  · intro hne
    cases hs : sdc.conn with
    | none => exact absurd hs hne
    | some c0 =>
      simp only [ShardConn.ensureConn, hs, Prod.mk.injEq, true_and] at hE
      exact ⟨hE.1.symm, hE.2.symm⟩
  · intro hr
    simp [ShardConn.ExecDirect, execDirectLoop, hE, hc, TabletConn.ExecDirect, hr,
      ShardConn.mustReturn, he]
  · intro hin hr
    have hsd : ({ sdc1 with conn := some c } : ShardConn) = sdc1 := by
      cases sdc1
      simp only at hc
      simp [hc]
    simp [ShardConn.Begin, hin, beginLoop, hE, hc, TabletConn.Begin, hr,
      ShardConn.mustReturn, he, hsd]

/-- C7. Whatever the retry count and whatever the Balancer, the dial and the
backend do, one call of `ExecDirect`, `ExecStream` or `Begin` returns, its log
holds at most two of its calls and at most two entries of `connect`, and when
two calls were made the answer of the second one is what the operation returns. -/
theorem c7_at_most_two_attempts (env : Env) (q : String) (bv : List (String × String))
    (sdc : ShardConn) (tr : List Event) :
    (∃ ret sdc1 suf, sdc.ExecDirect env q bv tr = some (ret, sdc1, tr ++ suf) ∧
        (executeResults suf).length ≤ 2 ∧ connectCount suf ≤ 2 ∧
        ∀ r1 r2, executeResults suf = [r1, r2] → ret = execReturn r2) ∧
      (∃ ret sdc1 suf, sdc.ExecStream env q bv tr = some (ret, sdc1, tr ++ suf) ∧
        (streamCalls suf).length ≤ 2 ∧ connectCount suf ≤ 2 ∧
        ∀ k1 k2, streamCalls suf = [k1, k2] → ret = streamReturn k2) ∧
      (∃ err sdc1 suf, sdc.Begin env tr = some (err, sdc1, tr ++ suf) ∧
        (beginResults suf).length ≤ 2 ∧ connectCount suf ≤ 2 ∧
        ∀ r1 r2, beginResults suf = [r1, r2] → err = beginReturn r2) := by
  refine ⟨?_, ?_, ?_⟩
  · obtain ⟨ret, sdc1, suf, h1, h2, h3, _, h5⟩ :=
      execDirectLoop_spec env q bv 2 (none, none) sdc tr
    exact ⟨ret, sdc1, suf, h1, h2, h3, fun r1 r2 h => h5 r2 (by rw [h]; rfl) (by rw [h]; rfl)⟩
  · obtain ⟨ret, sdc1, suf, h1, h2, h3, _, h5⟩ :=
      execStreamLoop_spec env q bv 2 (none, none) sdc tr
    exact ⟨ret, sdc1, suf, h1, h2, h3, fun k1 k2 h => h5 k2 (by rw [h]; rfl) (by rw [h]; rfl)⟩
  · cases hin : sdc.inTransaction with
    | true =>
      exact ⟨some (GoError.other "cannot begin: already in transaction"), sdc, [],
        by simp [ShardConn.Begin, hin], by simp [beginResults],
        by simp [connectCount], by simp [beginResults]⟩
    | false =>
      obtain ⟨ret, sdc1, suf, h1, h2, h3, _, h5⟩ := beginLoop_spec env 2 none sdc tr
      exact ⟨ret, sdc1, suf, by simp [ShardConn.Begin, hin, h1], h2, h3,
        fun r1 r2 h => h5 r2 (by rw [h]; rfl) (by rw [h]; rfl)⟩

/-- The draws of a concatenated log. -/
theorem drawCount_append (a b : List Event) :
    drawCount (a ++ b) = drawCount a + drawCount b := by
  simp [drawCount]

/-- The addresses marked down in a concatenated log. -/
theorem markDowns_append (a b : List Event) :
    markDowns (a ++ b) = markDowns a ++ markDowns b := by
  simp [markDowns]

/-- The loop of `connect` when the Balancer yields `as` and then `ak`, the dials
of `as` fail and the dial of `ak` succeeds, with more iterations left than
`as` has addresses. -/
theorem connectLoop_draws (env : Env) (sdc : ShardConn) (ak : String) (as : List String) :
    ∀ (tr : List Event) (m : Nat) (lastError : Option GoError), as.length < m →
      (∀ i a l, (as ++ [ak])[i]? = some a → drawCount l = i →
        env.balancerGet (tr ++ l) = .ok a) →
      (∀ i a l, as[i]? = some a → drawCount l = i + 1 →
        ∃ e, (DialTablet env (tr ++ l) a sdc.keyspace sdc.shard "" "" false).1 = .error e) →
      (∀ l, drawCount l = as.length + 1 →
        ∃ c, (DialTablet env (tr ++ l) ak sdc.keyspace sdc.shard "" "" false).1 = .ok c) →
      ∃ c suf l, connectLoop env m lastError sdc tr =
          (none, { sdc with address := ak, conn := some c }, tr ++ suf) ∧
        drawCount suf = as.length + 1 ∧ markDowns suf = as ∧ connectCount suf = 0 ∧
        DialTablet env (tr ++ l) ak sdc.keyspace sdc.shard "" "" false = (.ok c, tr ++ suf) := by
  induction as with
  | nil =>
    intro tr m lastError hm hget _ hok
    obtain ⟨m1, rfl⟩ : ∃ m1, m = m1 + 1 := ⟨m - 1, by simp at hm; omega⟩
    have hg : env.balancerGet tr = .ok ak := by
      simpa using hget 0 ak [] (by simp) rfl
    obtain ⟨c, hc⟩ := hok [Event.balancerGet (.ok ak)] rfl
    rcases hd : DialTablet env (tr ++ [Event.balancerGet (.ok ak)]) ak sdc.keyspace sdc.shard
      "" "" false with ⟨r, trd⟩
    rw [hd] at hc
    simp only at hc
    subst hc
    obtain ⟨_, _, _, ht⟩ := DialTablet_ok env _ ak _ _ c trd hd
    refine ⟨c, [Event.balancerGet (.ok ak), Event.dialHTTP ak (.ok c.rpcClient),
      Event.getSessionId c.rpcClient sdc.keyspace sdc.shard (.ok c.SessionId)],
      [Event.balancerGet (.ok ak)], ?_, rfl, rfl, rfl, ?_⟩
    · unfold connectLoop
      simp only [hg, hd, ht]
      simp
    · rw [hd, ht]; simp
  | cons a as ih =>
    intro tr m lastError hm hget hfail hok
    obtain ⟨m1, rfl⟩ : ∃ m1, m = m1 + 1 := ⟨m - 1, by simp at hm; omega⟩
    have hm1 : as.length < m1 := by simp at hm; omega
    have hg : env.balancerGet tr = .ok a := by
      simpa using hget 0 a [] (by simp) rfl
    obtain ⟨e, he⟩ := hfail 0 a [Event.balancerGet (.ok a)] (by simp) rfl
    rcases hd : DialTablet env (tr ++ [Event.balancerGet (.ok a)]) a sdc.keyspace sdc.shard
      "" "" false with ⟨r, trd⟩
    rw [hd] at he
    simp only at he
    subst he
    obtain ⟨X, hX, hX1, hX2, hX3⟩ : ∃ X, trd ++ [Event.markDown a] = tr ++ X ∧
        drawCount X = 1 ∧ markDowns X = [a] ∧ connectCount X = 0 := by
      rcases DialTablet_error env _ a _ _ e trd hd with ht | ⟨cl, ht⟩
      · exact ⟨[Event.balancerGet (.ok a), Event.dialHTTP a (.error e), Event.markDown a],
          by simp [ht], rfl, rfl, rfl⟩
      · exact ⟨[Event.balancerGet (.ok a), Event.dialHTTP a (.ok cl),
          Event.getSessionId cl sdc.keyspace sdc.shard (.error e), Event.markDown a],
          by simp [ht], rfl, rfl, rfl⟩
    obtain ⟨c, suf, l, h1, h2, h3, h4, h5⟩ := ih (tr ++ X) m1 (some e) hm1
      (fun i b l hb hl => by
        have := hget (i + 1) b (X ++ l) (by simpa using hb)
          (by rw [drawCount_append, hX1, hl]; omega)
        simpa using this)
      (fun i b l hb hl => by
        have := hfail (i + 1) b (X ++ l) (by simpa using hb)
          (by rw [drawCount_append, hX1, hl]; omega)
        simpa using this)
      (fun l hl => by
        have := hok (X ++ l) (by rw [drawCount_append, hX1, hl]; simp; omega)
        simpa using this)
    refine ⟨c, X ++ suf, X ++ l, ?_, ?_, ?_, ?_, ?_⟩
    · unfold connectLoop
      simp only [hg, hd]
      rw [hX, h1]
      simp
    · rw [drawCount_append, hX1, h2]; simp; omega
    · rw [markDowns_append, hX2, h3]; rfl
    · rw [connectCount_append, hX3, h4]
    · rw [← List.append_assoc, h5]; simp

/-- C10. With retry count `n` and `k = as.length + 1 ≤ n`: when the Balancer
yields the addresses `as` and then `ak` in order, the dial that follows each
draw of `as` fails and the dial of `ak` succeeds, `connect` returns nil with
the address `ak` and the client that this dial returned, after exactly `k`
draws, having marked down exactly the addresses `as`, each once and in order. -/
theorem c10_connect_kth_dial_succeeds (env : Env) (sdc : ShardConn) (tr : List Event)
    (as : List String) (ak : String)
    (hk : (as.length : Int) + 1 ≤ sdc.retryCount)
    (hget : ∀ i a l, (as ++ [ak])[i]? = some a → drawCount l = i →
      env.balancerGet (tr ++ l) = .ok a)
    (hfail : ∀ i a l, as[i]? = some a → drawCount l = i + 1 →
      ∃ e, (DialTablet env (tr ++ l) a sdc.keyspace sdc.shard "" "" false).1 = .error e)
    (hok : ∀ l, drawCount l = as.length + 1 →
      ∃ c, (DialTablet env (tr ++ l) ak sdc.keyspace sdc.shard "" "" false).1 = .ok c) :
    ∃ c suf l, sdc.connect env tr =
        (none, { sdc with address := ak, conn := some c }, tr ++ suf) ∧
      drawCount suf = as.length + 1 ∧ markDowns suf = as ∧ connectCount suf = 1 ∧
      DialTablet env (tr ++ l) ak sdc.keyspace sdc.shard "" "" false = (.ok c, tr ++ suf) := by
  obtain ⟨c, suf, l, h1, h2, h3, h4, h5⟩ := connectLoop_draws env sdc ak as
    (tr ++ [Event.connect]) sdc.retryCount.toNat none (by omega)
    (fun i b l hb hl => by
      have := hget i b (Event.connect :: l) hb
        (by rw [← hl]; simp [drawCount, Event.isBalancerGet])
      simpa using this)
    (fun i b l hb hl => by
      have := hfail i b (Event.connect :: l) hb
        (by rw [← hl]; simp [drawCount, Event.isBalancerGet])
      simpa using this)
    (fun l hl => by
      have := hok (Event.connect :: l) (by rw [← hl]; simp [drawCount, Event.isBalancerGet])
      simpa using this)
  refine ⟨c, Event.connect :: suf, Event.connect :: l, ?_, ?_, ?_, ?_, ?_⟩
  · simp only [ShardConn.connect, h1]; simp
  · rw [← h2]; simp [drawCount, Event.isBalancerGet]
  · rw [← h3]; simp [markDowns, Event.markDownAddr]
  · simp only [connectCount] at h4 ⊢
    simp [Event.isConnect, h4]
  · have := h5
    simp only [List.append_assoc, List.singleton_append] at this
    exact this

/-- C8 (evaluation). With retry count `n + 1` (so 3 for `n = 2`), a held client
without transaction, every `Execute` call failing with a transport error and
every `connect` succeeding, `ExecDirect` issues the query exactly twice (one
retry, after one `connect`) and returns the error. -/
theorem c8_execDirect_one_retry (n : Nat) :
    (heldConn 0 (n + 1)).ExecDirect envCallsFail "select 1" [] [] =
      some ((none, some (GoError.other "EOF")),
        { heldConn 0 (n + 1) with address := "", conn := none },
        [Event.execute 1 ((sampleConn 0).query "select 1" []) (.error (.other "EOF")),
          Event.markDown "A", Event.rpcClose 1 none, Event.connect,
          Event.balancerGet (.ok "B"), Event.dialHTTP "B" (.ok 2),
          Event.getSessionId 2 "ks" "0" (.ok 8),
          Event.execute 2 ((dialledConn 2 8).query "select 1" []) (.error (.other "EOF")),
          Event.markDown "B", Event.rpcClose 2 none]) ∧
      (executeResults
        [Event.execute 1 ((sampleConn 0).query "select 1" []) (.error (.other "EOF")),
          Event.markDown "A", Event.rpcClose 1 none, Event.connect,
          Event.balancerGet (.ok "B"), Event.dialHTTP "B" (.ok 2),
          Event.getSessionId 2 "ks" "0" (.ok 8),
          Event.execute 2 ((dialledConn 2 8).query "select 1" []) (.error (.other "EOF")),
          Event.markDown "B", Event.rpcClose 2 none]).length = 2 := by
  have hn : ((n : Int) + 1).toNat = n + 1 := by omega
  refine ⟨?_, rfl⟩
  simp [ShardConn.ExecDirect, execDirectLoop, ShardConn.ensureConn, heldConn, sampleConn,
    dialledConn, TabletConn.ExecDirect, TabletConn.query, envCallsFail, envHealthy, ShardConn.mustReturn,
    GoError.isServerError, ShardConn.inTransaction, ShardConn.Close, TabletConn.Close,
    ShardConn.connect, hn, connectLoop, DialTablet]

/-- C9 (evaluation). Retry count 3, a held client without transaction, two
consecutive transport faults (fewer than 3) on the `Execute` calls, every
`connect` succeeding and every call after the two faults succeeding:
`ExecDirect` returns the error of the second fault instead of success, and so
does `Begin` with two faults on the `Begin` calls. -/
theorem c9_two_call_faults_surface :
    (∃ sdc1 tr1,
        (heldConn 0 3).ExecDirect envTwoFaults "select 1" [] [] =
          some ((none, some (GoError.other "EOF")), sdc1, tr1) ∧
        executeResults tr1 = [.error (.other "EOF"), .error (.other "EOF")] ∧
        connectCount tr1 = 1 ∧
        (∀ l c q, envTwoFaults.rpcExecute (tr1 ++ l) c q = .ok { Rows := [] })) ∧
      (∃ sdc1 tr1,
        (heldConn 0 3).Begin envTwoFaults [] = some (some (GoError.other "EOF"), sdc1, tr1) ∧
        beginResults tr1 = [.error (.other "EOF"), .error (.other "EOF")] ∧
        connectCount tr1 = 1 ∧
        (∀ l c ss, envTwoFaults.rpcBegin (tr1 ++ l) c ss = .ok 5)) ∧
      (∀ l, envTwoFaults.balancerGet l = .ok "B") ∧
      (∀ l a, (DialTablet envTwoFaults l a "ks" "0" "" "" false).1 = .ok (dialledConn 2 8)) := by
  refine ⟨⟨{ heldConn 0 3 with address := "", conn := none },
      [Event.execute 1 ((sampleConn 0).query "select 1" []) (.error (.other "EOF")),
        Event.markDown "A", Event.rpcClose 1 none, Event.connect,
        Event.balancerGet (.ok "B"), Event.dialHTTP "B" (.ok 2),
        Event.getSessionId 2 "ks" "0" (.ok 8),
        Event.execute 2 ((dialledConn 2 8).query "select 1" []) (.error (.other "EOF")),
        Event.markDown "B", Event.rpcClose 2 none], ?_, rfl, rfl, ?_⟩,
    ⟨{ heldConn 0 3 with address := "", conn := none },
      [Event.begin 1 (sampleConn 0).toSession (.error (.other "EOF")),
        Event.markDown "A", Event.rpcClose 1 none, Event.connect,
        Event.balancerGet (.ok "B"), Event.dialHTTP "B" (.ok 2),
        Event.getSessionId 2 "ks" "0" (.ok 8),
        Event.begin 2 (dialledConn 2 8).toSession (.error (.other "EOF")),
        Event.markDown "B", Event.rpcClose 2 none], ?_, rfl, rfl, ?_⟩, ?_, ?_⟩
  · simp [ShardConn.ExecDirect, execDirectLoop, ShardConn.ensureConn, heldConn, sampleConn,
      dialledConn, TabletConn.ExecDirect, TabletConn.query, envTwoFaults, envHealthy,
      ShardConn.mustReturn, GoError.isServerError, ShardConn.inTransaction, ShardConn.Close,
      TabletConn.Close, ShardConn.connect, connectLoop, DialTablet, executeResults,
      Event.executeRes]
  · intro l c q
    simp [envTwoFaults, executeResults, Event.executeRes]
  · simp [ShardConn.Begin, beginLoop, ShardConn.ensureConn, heldConn, sampleConn,
      dialledConn, TabletConn.Begin, envTwoFaults, envHealthy,
      ShardConn.mustReturn, GoError.isServerError, ShardConn.inTransaction, ShardConn.Close,
      TabletConn.Close, ShardConn.connect, connectLoop, DialTablet, beginResults,
      Event.beginRes]
  · intro l c ss
    simp [envTwoFaults, beginResults, Event.beginRes]
  · intro l; rfl
  · intro l a; rfl

/-- The dials of a concatenated log. -/
theorem dialCount_append (a b : List Event) :
    dialCount (a ++ b) = dialCount a + dialCount b := by
  simp [dialCount]

/-- The value of `lastError` after one more failed dial in front. -/
theorem lastDialError_cons (d : String × GoError) (ds : List (String × GoError))
    (lastError : Option GoError) :
    lastDialError (d :: ds) lastError = lastDialError ds (some d.2) := by
  cases ds with
  | nil => simp [lastDialError]
  | cons d1 t =>
    simp only [lastDialError, List.getLast?_cons_cons]
    cases h : (d1 :: t).getLast? with
    | some x => rfl
    | none => simp at h

/-- The loop of `connect` while the Balancer yields the addresses of `ds` and the
dial of each fails with the paired error: after `ds.length` iterations the loop
goes on with the last error, having drawn, dialled and marked down each address
once, in order. -/
theorem connectLoop_failed_draws (env : Env) (sdc : ShardConn) (ds : List (String × GoError)) :
    ∀ (tr : List Event) (m : Nat) (lastError : Option GoError),
      (∀ i d l, ds[i]? = some d → drawCount l = i → env.balancerGet (tr ++ l) = .ok d.1) →
      (∀ i d l, ds[i]? = some d → drawCount l = i + 1 →
        (DialTablet env (tr ++ l) d.1 sdc.keyspace sdc.shard "" "" false).1 = .error d.2) →
      ∃ X, connectLoop env (ds.length + m) lastError sdc tr =
          connectLoop env m (lastDialError ds lastError) sdc (tr ++ X) ∧
        drawCount X = ds.length ∧ dialCount X = ds.length ∧
        markDowns X = ds.map Prod.fst ∧ ∀ ev ∈ X, Event.isDial ev = true := by
  induction ds with
  | nil =>
    intro tr m lastError _ _
    exact ⟨[], by simp [lastDialError], rfl, rfl, rfl, by simp⟩
  | cons d ds ih =>
    intro tr m lastError hget hfail
    have hg : env.balancerGet tr = .ok d.1 := by
      simpa using hget 0 d [] (by simp) rfl
    have he := hfail 0 d [Event.balancerGet (.ok d.1)] (by simp) rfl
    rcases hd : DialTablet env (tr ++ [Event.balancerGet (.ok d.1)]) d.1 sdc.keyspace sdc.shard
      "" "" false with ⟨r, trd⟩
    rw [hd] at he
    simp only at he
    subst he
    obtain ⟨X0, hX, hX1, hX2, hX3, hX4⟩ : ∃ X0, trd ++ [Event.markDown d.1] = tr ++ X0 ∧
        drawCount X0 = 1 ∧ dialCount X0 = 1 ∧ markDowns X0 = [d.1] ∧
        ∀ ev ∈ X0, Event.isDial ev = true := by
      rcases DialTablet_error env _ d.1 _ _ d.2 trd hd with ht | ⟨cl, ht⟩
      · refine ⟨[Event.balancerGet (.ok d.1), Event.dialHTTP d.1 (.error d.2),
          Event.markDown d.1], by simp [ht], rfl, rfl, rfl, ?_⟩
        intro ev hev
        simp only [List.mem_cons, List.mem_singleton, List.not_mem_nil, or_false] at hev
        rcases hev with h | h | h <;> simp [h, Event.isDial]
      · refine ⟨[Event.balancerGet (.ok d.1), Event.dialHTTP d.1 (.ok cl),
          Event.getSessionId cl sdc.keyspace sdc.shard (.error d.2), Event.markDown d.1],
          by simp [ht], rfl, rfl, rfl, ?_⟩
        intro ev hev
        simp only [List.mem_cons, List.mem_singleton, List.not_mem_nil, or_false] at hev
        rcases hev with h | h | h | h <;> simp [h, Event.isDial]
    obtain ⟨X, h1, h2, h3, h4, h5⟩ := ih (tr ++ X0) m (some d.2)
      (fun i b l hb hl => by
        have := hget (i + 1) b (X0 ++ l) (by simpa using hb)
          (by rw [drawCount_append, hX1, hl]; omega)
        simpa using this)
      (fun i b l hb hl => by
        have := hfail (i + 1) b (X0 ++ l) (by simpa using hb)
          (by rw [drawCount_append, hX1, hl]; omega)
        simpa using this)
    refine ⟨X0 ++ X, ?_, ?_, ?_, ?_, ?_⟩
    · have hlen : (d :: ds).length + m = (ds.length + m) + 1 := by simp; omega
      rw [hlen, lastDialError_cons]
      conv => lhs; unfold connectLoop
      simp only [hg, hd]
      rw [hX, h1]
      simp
    · rw [drawCount_append, hX1, h2]; simp; omega
    · rw [dialCount_append, hX2, h3]; simp; omega
    · rw [markDowns_append, hX3, h4]; rfl
    · intro ev hev
      rcases List.mem_append.mp hev with h | h
      · exact hX4 ev h
      · exact h5 ev h

/-- C11. With retry count `n ≥ 1` on a connection without client: when the
Balancer yields an address on each of the `n` draws and the dial of each fails,
`connect` makes exactly `n` draws and `n` dials, marks down each drawn address
(once, in order), leaves the connection as it was (no client, empty address)
and returns the error whose text names `keyspace.shard.tabletType` and the
error of the last dial. -/
theorem c11_connect_exhausted (env : Env) (sdc : ShardConn) (tr : List Event)
    (ds : List (String × GoError)) (dn : String × GoError)
    (hn : sdc.retryCount = ds.length) (hlast : ds.getLast? = some dn)
    (hc : sdc.conn = none) (ha : sdc.address = "")
    (hget : ∀ i d l, ds[i]? = some d → drawCount l = i → env.balancerGet (tr ++ l) = .ok d.1)
    (hfail : ∀ i d l, ds[i]? = some d → drawCount l = i + 1 →
      (DialTablet env (tr ++ l) d.1 sdc.keyspace sdc.shard "" "" false).1 = .error d.2) :
    ∃ suf, sdc.connect env tr = (some (connectError sdc (some dn.2)), sdc, tr ++ suf) ∧
      drawCount suf = ds.length ∧ dialCount suf = ds.length ∧
      markDowns suf = ds.map Prod.fst ∧
      (sdc.connect env tr).2.1.conn = none ∧ (sdc.connect env tr).2.1.address = "" ∧
      (connectError sdc (some dn.2)).msg =
        "could not obtain connection to " ++ sdc.keyspace ++ "." ++ sdc.shard ++ "."
          ++ sdc.tabletType ++ ", last error: " ++ dn.2.msg := by
  obtain ⟨X, h1, h2, h3, h4, _⟩ := connectLoop_failed_draws env sdc ds
    (tr ++ [Event.connect]) 0 none
    (fun i b l hb hl => by
      have := hget i b (Event.connect :: l) hb
        (by rw [← hl]; simp [drawCount, Event.isBalancerGet])
      simpa using this)
    (fun i b l hb hl => by
      have := hfail i b (Event.connect :: l) hb
        (by rw [← hl]; simp [drawCount, Event.isBalancerGet])
      simpa using this)
  have hconn : sdc.connect env tr =
      (some (connectError sdc (some dn.2)), sdc, tr ++ Event.connect :: X) := by
    have hnat : sdc.retryCount.toNat = ds.length + 0 := by rw [hn]; simp
    simp only [ShardConn.connect, hnat, h1, lastDialError, hlast, connectLoop]
    simp
  refine ⟨Event.connect :: X, hconn, ?_, ?_, ?_, ?_, ?_, rfl⟩
  · rw [← h2]; simp [drawCount, Event.isBalancerGet]
  · rw [← h3]; simp [dialCount, Event.isDialHTTP]
  · rw [← h4]; simp [markDowns, Event.markDownAddr]
  · rw [hconn]; exact hc
  · rw [hconn]; exact ha

/-- C12. On a connection without client: when, after the failed dials of `ds`
(fewer than the retry count), the next `Get` of the Balancer fails with `e`,
`connect` returns `e` itself and its log ends with that `Get` (no further draw,
no dial after it), and `ExecDirect`, `ExecStream` and `Begin` return that same
error (with a nil result), without any call, the connection being unchanged
and still without client. -/
theorem c12_selector_error_surfaces (env : Env) (q : String) (bv : List (String × String))
    (sdc : ShardConn) (tr : List Event) (ds : List (String × GoError)) (e : GoError)
    (hc : sdc.conn = none) (hk : (ds.length : Int) < sdc.retryCount)
    (hget : ∀ i d l, ds[i]? = some d → drawCount l = i → env.balancerGet (tr ++ l) = .ok d.1)
    (hfail : ∀ i d l, ds[i]? = some d → drawCount l = i + 1 →
      (DialTablet env (tr ++ l) d.1 sdc.keyspace sdc.shard "" "" false).1 = .error d.2)
    (hsel : ∀ l, drawCount l = ds.length → env.balancerGet (tr ++ l) = .error e) :
    ∃ pre, sdc.connect env tr = (some e, sdc, tr ++ pre ++ [Event.balancerGet (.error e)]) ∧
      drawCount pre = ds.length ∧ dialCount pre = ds.length ∧
      executeResults (pre ++ [Event.balancerGet (.error e)]) = [] ∧
      streamCalls (pre ++ [Event.balancerGet (.error e)]) = [] ∧
      beginResults (pre ++ [Event.balancerGet (.error e)]) = [] ∧
      sdc.ExecDirect env q bv tr =
        some ((none, some e), sdc, tr ++ pre ++ [Event.balancerGet (.error e)]) ∧
      sdc.ExecStream env q bv tr =
        some ((none, some e), sdc, tr ++ pre ++ [Event.balancerGet (.error e)]) ∧
      sdc.Begin env tr = some (some e, sdc, tr ++ pre ++ [Event.balancerGet (.error e)]) := by
  obtain ⟨m, hm⟩ : ∃ m, sdc.retryCount.toNat = ds.length + (m + 1) :=
    ⟨sdc.retryCount.toNat - ds.length - 1, by omega⟩
  obtain ⟨X, h1, h2, h3, _, h5⟩ := connectLoop_failed_draws env sdc ds
    (tr ++ [Event.connect]) (m + 1) none
    (fun i b l hb hl => by
      have := hget i b (Event.connect :: l) hb
        (by rw [← hl]; simp [drawCount, Event.isBalancerGet])
      simpa using this)
    (fun i b l hb hl => by
      have := hfail i b (Event.connect :: l) hb
        (by rw [← hl]; simp [drawCount, Event.isBalancerGet])
      simpa using this)
  have hg : env.balancerGet (tr ++ [Event.connect] ++ X) = .error e := by
    have := hsel (Event.connect :: X) (by rw [← h2]; simp [drawCount, Event.isBalancerGet])
    simpa using this
  have hconn : sdc.connect env tr =
      (some e, sdc, tr ++ Event.connect :: X ++ [Event.balancerGet (.error e)]) := by
    simp only [ShardConn.connect, hm, h1]
    unfold connectLoop
    simp only [hg]
    simp
  have hin : sdc.inTransaction = false := by simp [ShardConn.inTransaction, hc]
  obtain ⟨g1, g2, g3, _⟩ := dial_log_counts X h5
  refine ⟨Event.connect :: X, hconn, ?_, ?_, ?_, ?_, ?_, ?_, ?_, ?_⟩
  · rw [← h2]; simp [drawCount, Event.isBalancerGet]
  · rw [← h3]; simp [dialCount, Event.isDialHTTP]
  · rw [show Event.connect :: X ++ [Event.balancerGet (.error e)]
      = [Event.connect] ++ X ++ [Event.balancerGet (.error e)] from rfl,
      executeResults_append, executeResults_append, g1]
    rfl
  · rw [show Event.connect :: X ++ [Event.balancerGet (.error e)]
      = [Event.connect] ++ X ++ [Event.balancerGet (.error e)] from rfl,
      streamCalls_append, streamCalls_append, g3]
    rfl
  · rw [show Event.connect :: X ++ [Event.balancerGet (.error e)]
      = [Event.connect] ++ X ++ [Event.balancerGet (.error e)] from rfl,
      beginResults_append, beginResults_append, g2]
    rfl
  · simp [ShardConn.ExecDirect, execDirectLoop, ShardConn.ensureConn, hc, hconn]
  · simp [ShardConn.ExecStream, execStreamLoop, ShardConn.ensureConn, hc, hconn]
  · simp [ShardConn.Begin, hin, beginLoop, ShardConn.ensureConn, hc, hconn]

/-- C14. `Close` on a connection whose address is empty when it holds no client
(as in every state reached from `NewShardConn`): afterwards there is no client
and the address is empty; without client it returns nil and changes neither the
connection nor the log; with a client it closes that client exactly once and
returns exactly the error of that close; a second `Close` returns nil and
changes nothing, so two `Close` end where one does. -/
theorem c14_close_idempotent (env : Env) (sdc : ShardConn) (tr : List Event)
    (hwf : sdc.conn = none → sdc.address = "") :
    (sdc.Close env tr).2.1.conn = none ∧ (sdc.Close env tr).2.1.address = "" ∧
      (sdc.conn = none → sdc.Close env tr = (none, sdc, tr)) ∧
      (∀ c, sdc.conn = some c →
        sdc.Close env tr =
          (env.rpcClose tr c.rpcClient, { sdc with address := "", conn := none },
            tr ++ [Event.rpcClose c.rpcClient (env.rpcClose tr c.rpcClient)])) ∧
      (sdc.Close env tr).2.1.Close env (sdc.Close env tr).2.2 =
        (none, (sdc.Close env tr).2.1, (sdc.Close env tr).2.2) := by
  cases hc : sdc.conn with
  | none =>
    have h : sdc.Close env tr = (none, sdc, tr) := by simp [ShardConn.Close, hc]
    refine ⟨by rw [h]; exact hc, by rw [h]; exact hwf hc, fun _ => h, ?_, ?_⟩
    · intro c h1; simp at h1
    · rw [h]; exact h
  | some c =>
    have h : sdc.Close env tr =
        (env.rpcClose tr c.rpcClient, { sdc with address := "", conn := none },
          tr ++ [Event.rpcClose c.rpcClient (env.rpcClose tr c.rpcClient)]) := by
      simp [ShardConn.Close, hc, TabletConn.Close]
    refine ⟨by rw [h], by rw [h], ?_, ?_, ?_⟩
    · intro h1; simp at h1
    · intro c1 h1
      simp only [Option.some.injEq] at h1
      subst h1
      exact h
    · rw [h]; simp [ShardConn.Close]

/-- When the loop of `Begin` returns nil, the last event of the log is a
successful `Begin` call on the client now held, and its answer is the
transaction id that client now carries. -/
theorem beginLoop_nil (env : Env) :
    ∀ (n : Nat) (ret : Option GoError) (sdc sdc1 : ShardConn) (tr tr1 : List Event),
      beginLoop env n ret sdc tr = some (none, sdc1, tr1) →
      (n = 0 ∧ ret = none) ∨
        ∃ c pre ss, sdc1.conn = some c ∧
          tr1 = pre ++ [Event.begin c.rpcClient ss (.ok c.TransactionId)] := by
  intro n
  induction n with
  | zero =>
    intro ret sdc sdc1 tr tr1 h
    simp only [beginLoop, Option.some.injEq, Prod.mk.injEq] at h
    exact Or.inl ⟨rfl, h.1⟩
  | succ n ih =>
    intro ret sdc sdc1 tr tr1 h
    right
    obtain ⟨_, _, _, _, _, _, k0⟩ := ensureConn_spec env sdc tr
    unfold beginLoop at h
    rcases hE : sdc.ensureConn env tr with ⟨eo, sdc0, tr0⟩
    rw [hE] at h k0
    simp only at h k0
    cases eo with
    | some err => simp at h
    | none =>
      obtain ⟨c, hc⟩ := k0 rfl
      simp only [hc] at h
      cases hr : env.rpcBegin tr0 c.rpcClient c.toSession with
      | ok tid =>
        simp only [TabletConn.Begin, hr, ShardConn.mustReturn, if_true, Option.some.injEq,
          Prod.mk.injEq, true_and] at h
        obtain ⟨h1, h2⟩ := h
        refine ⟨{ c with TransactionId := tid }, tr0, c.toSession, by rw [← h1], ?_⟩
        rw [← h2]
      | error e =>
        simp only [TabletConn.Begin, hr] at h
        rcases hM : ShardConn.mustReturn env (some e) { sdc0 with conn := some c }
          (tr0 ++ [Event.begin c.rpcClient c.toSession (.error e)]) with ⟨b, sdc2, tr2⟩
        rw [hM] at h
        cases b with
        | true => simp at h
        | false =>
          simp only [Bool.false_eq_true, if_false] at h
          rcases ih (some e) sdc2 sdc1 tr2 tr1 h with ⟨_, h0⟩ | h0
          · simp at h0
          · exact h0

/-- C15. On a connection without open transaction: when `Begin` returns nil (its
last call succeeded and the client holds the transaction id the backend
answered) and the `Commit` that follows issues its call and the call succeeds,
`inTransaction` is true after `Begin`, `Commit` returns nil and `inTransaction`
is false after it. -/
theorem c15_begin_then_commit (env : Env) (sdc sdc1 sdc2 : ShardConn) (tr tr1 : List Event)
    (err : Option GoError) (cl : Nat) (ss : Session)
    (hno : sdc.inTransaction = false)
    (hB : sdc.Begin env tr = some (none, sdc1, tr1))
    (hC : sdc1.Commit env tr1 = some (err, sdc2, tr1 ++ [Event.commit cl ss none])) :
    sdc1.inTransaction = true ∧ err = none ∧ sdc2.inTransaction = false ∧
      ∃ c pre ss0, sdc1.conn = some c ∧ c.TransactionId ≠ 0 ∧
        tr1 = pre ++ [Event.begin c.rpcClient ss0 (.ok c.TransactionId)] ∧
        cl = c.rpcClient ∧ ss = c.toSession ∧
        sdc2 = { sdc1 with conn := some { c with TransactionId := 0 } } := by
  have hL : beginLoop env 2 none sdc tr = some (none, sdc1, tr1) := by
    simpa [ShardConn.Begin, hno] using hB
  rcases beginLoop_nil env 2 none sdc sdc1 tr tr1 hL with ⟨h0, _⟩ | ⟨c, pre, ss0, hc, htr⟩
  · simp at h0
  · cases hin : sdc1.inTransaction with
    | false =>
      simp [ShardConn.Commit, hin] at hC
    | true =>
      simp only [ShardConn.Commit, hin, hc, TabletConn.Commit, Bool.not_true,
        Bool.false_eq_true, if_false, Option.some.injEq, Prod.mk.injEq,
        List.append_cancel_left_eq, List.cons.injEq, Event.commit.injEq, and_true] at hC
      obtain ⟨h1, h2, h3, h4, h5⟩ := hC
      refine ⟨rfl, ?_, ?_, c, pre, ss0, hc, ?_, htr, h3.symm, h4.symm, h2.symm⟩
      · rw [← h1, h5]
      · rw [← h2]; simp [ShardConn.inTransaction]
      · simpa [ShardConn.inTransaction, hc] using hin

/-- C16. `mustReturn(err)` is true exactly when `err` is nil, or `err` is a
`ServerError`, or a client is held whose transaction id is not 0 (read on
entry: the client is gone when the function returns); it is false exactly for
a non-nil error that is not a `ServerError` when no client is held or the
client held has transaction id 0; when `err` is nil or a `ServerError` neither
the connection nor the log changes (nothing is marked down); in the other case
the address is marked down and the client, if any, closed and dropped. -/
theorem c16_mustReturn_policy (env : Env) (err : Option GoError) (sdc : ShardConn)
    (tr : List Event) :
    ((sdc.mustReturn env err tr).1 = true ↔
        (err = none ∨ (∃ e, err = some e ∧ e.isServerError = true) ∨
          ∃ c, sdc.conn = some c ∧ c.TransactionId ≠ 0)) ∧
      ((sdc.mustReturn env err tr).1 = false ↔
        ∃ e, err = some e ∧ e.isServerError = false ∧
          (sdc.conn = none ∨ ∃ c, sdc.conn = some c ∧ c.TransactionId = 0)) ∧
      ((err = none ∨ ∃ e, err = some e ∧ e.isServerError = true) →
        (sdc.mustReturn env err tr).2 = (sdc, tr)) ∧
      (∀ e, err = some e → e.isServerError = false →
        (sdc.mustReturn env err tr).2.1.conn = none ∧
        (sdc.conn = none →
          (sdc.mustReturn env err tr).2 = (sdc, tr ++ [Event.markDown sdc.address])) ∧
        (∀ c, sdc.conn = some c →
          (sdc.mustReturn env err tr).2 = (tornDown sdc, teardownLog env sdc c tr))) := by
  cases err with
  | none => simp [ShardConn.mustReturn]
  | some e =>
    cases he : e.isServerError with
    | true => simp [ShardConn.mustReturn, he]
    | false =>
      cases hc : sdc.conn with
      | none =>
        simp [ShardConn.mustReturn, he, ShardConn.inTransaction, hc, ShardConn.Close]
      | some c =>
        by_cases htx : c.TransactionId = 0 <;>
          simp [ShardConn.mustReturn, he, ShardConn.inTransaction, hc, htx, ShardConn.Close,
            TabletConn.Close, tornDown, teardownLog]

/-- C18. `ExecStream` in any state: when the head of the loop body fails (its
`connect` failed) that error is returned with a nil result; otherwise a client
is held and the streaming call is started exactly once on it, nothing is marked
down or closed after the head, the connection is as the head left it (itself
when it already held a client), and a non-nil stream handle is returned with a
nil error. -/
theorem c18_execStream_single_call (env : Env) (q : String) (bv : List (String × String))
    (sdc : ShardConn) (tr : List Event) :
    (∀ err, (sdc.ensureConn env tr).1 = some err →
        sdc.ExecStream env q bv tr =
          some ((none, some err), (sdc.ensureConn env tr).2.1, (sdc.ensureConn env tr).2.2)) ∧
      ((sdc.ensureConn env tr).1 = none →
        ∃ c, (sdc.ensureConn env tr).2.1.conn = some c ∧
          (streamReturn (env.rpcStreamGo (sdc.ensureConn env tr).2.2 c.rpcClient
            (c.query q bv))).1 ≠ none ∧
          sdc.ExecStream env q bv tr =
            some (streamReturn (env.rpcStreamGo (sdc.ensureConn env tr).2.2 c.rpcClient
                (c.query q bv)),
              (sdc.ensureConn env tr).2.1,
              (sdc.ensureConn env tr).2.2 ++ [Event.streamExecute c.rpcClient (c.query q bv)
                (env.rpcStreamGo (sdc.ensureConn env tr).2.2 c.rpcClient (c.query q bv))])) ∧
      (∀ c, sdc.conn = some c → sdc.ensureConn env tr = (none, sdc, tr)) ∧
      (sdc.conn = none → sdc.ensureConn env tr = sdc.connect env tr) ∧
      (∀ ret sdc1 tr1, sdc.ExecStream env q bv tr = some (ret, sdc1, tr1) →
        ret.2 = (sdc.ensureConn env tr).1) := by
  obtain ⟨_, _, _, _, _, _, k0⟩ := ensureConn_spec env sdc tr
  rcases hE : sdc.ensureConn env tr with ⟨eo, sdc1, tr1⟩
  rw [hE] at k0
  simp only at k0
  have hconn : sdc.conn = none → sdc.ensureConn env tr = sdc.connect env tr := by
    intro h; simp [ShardConn.ensureConn, h]
  have hheld : ∀ c, sdc.conn = some c → sdc.ensureConn env tr = (none, sdc, tr) := by
    intro c h; simp [ShardConn.ensureConn, h]
  cases eo with
  | some err =>
    have hS : sdc.ExecStream env q bv tr = some ((none, some err), sdc1, tr1) := by
      simp [ShardConn.ExecStream, execStreamLoop, hE]
    refine ⟨?_, ?_, ?_, ?_, ?_⟩
    · intro e1 h1
      simp only [Option.some.injEq] at h1
      subst h1
      exact hS
    · intro h1; simp at h1
    · intro c h; rw [← hE]; exact hheld c h
    · intro h; rw [← hE]; exact hconn h
    · intro ret s t h
      rw [hS] at h
      simp only [Option.some.injEq, Prod.mk.injEq] at h
      rw [← h.1]
  | none =>
    obtain ⟨c, hc⟩ := k0 rfl
    have hS : sdc.ExecStream env q bv tr =
        some (streamReturn (env.rpcStreamGo tr1 c.rpcClient (c.query q bv)), sdc1,
          tr1 ++ [Event.streamExecute c.rpcClient (c.query q bv)
            (env.rpcStreamGo tr1 c.rpcClient (c.query q bv))]) := by
      simp [ShardConn.ExecStream, execStreamLoop, hE, hc, TabletConn.ExecStream,
        ShardConn.mustReturn, streamReturn]
    refine ⟨?_, ?_, ?_, ?_, ?_⟩
    · intro e1 h1; simp at h1
    · intro _; exact ⟨c, hc, by simp [streamReturn], hS⟩
    · intro c h; rw [← hE]; exact hheld c h
    · intro h; rw [← hE]; exact hconn h
    · intro ret s t h
      rw [hS] at h
      simp only [Option.some.injEq, Prod.mk.injEq] at h
      rw [← h.1]
      rfl

/-- C20. With a retry count `≤ 0` on a connection without client, `connect`
draws nothing and dials nothing (its log is the entry marker alone) and returns
the error "could not obtain connection to keyspace.shard.tabletType, last
error: <nil>"; `ExecDirect`, `ExecStream` and `Begin` return that error with the
connection unchanged and no call made. -/
theorem c20_nonpositive_retryCount (env : Env) (q : String) (bv : List (String × String))
    (sdc : ShardConn) (tr : List Event) (hr : sdc.retryCount ≤ 0) (hc : sdc.conn = none) :
    sdc.connect env tr = (some (connectError sdc none), sdc, tr ++ [Event.connect]) ∧
      drawCount [Event.connect] = 0 ∧ dialCount [Event.connect] = 0 ∧
      (connectError sdc none).msg =
        "could not obtain connection to " ++ sdc.keyspace ++ "." ++ sdc.shard ++ "."
          ++ sdc.tabletType ++ ", last error: " ++ "<nil>" ∧
      sdc.ExecDirect env q bv tr =
        some ((none, some (connectError sdc none)), sdc, tr ++ [Event.connect]) ∧
      sdc.ExecStream env q bv tr =
        some ((none, some (connectError sdc none)), sdc, tr ++ [Event.connect]) ∧
      sdc.Begin env tr = some (some (connectError sdc none), sdc, tr ++ [Event.connect]) := by
  have hn : sdc.retryCount.toNat = 0 := by omega
  have hconn : sdc.connect env tr = (some (connectError sdc none), sdc, tr ++ [Event.connect]) := by
    simp [ShardConn.connect, hn, connectLoop]
  have hin : sdc.inTransaction = false := by simp [ShardConn.inTransaction, hc]
  refine ⟨hconn, rfl, rfl, rfl, ?_, ?_, ?_⟩
  · simp [ShardConn.ExecDirect, execDirectLoop, ShardConn.ensureConn, hc, hconn]
  · simp [ShardConn.ExecStream, execStreamLoop, ShardConn.ensureConn, hc, hconn]
  · simp [ShardConn.Begin, hin, beginLoop, ShardConn.ensureConn, hc, hconn]

/-- The policy on a transport fault without open transaction: `MarkDown`, close,
`false`. -/
theorem mustReturn_fault (env : Env) (sdc : ShardConn) (c : TabletConn) (e : GoError)
    (tr : List Event) (hc : sdc.conn = some c) (htx : c.TransactionId = 0)
    (he : e.isServerError = false) :
    sdc.mustReturn env (some e) tr = (false, tornDown sdc, teardownLog env sdc c tr) := by
  simp [ShardConn.mustReturn, he, ShardConn.inTransaction, hc, htx, ShardConn.Close,
    TabletConn.Close, tornDown, teardownLog]

/-- One iteration of the loop of `ExecDirect` once the head has left client `c`. -/
theorem execDirectLoop_succ (env : Env) (q : String) (bv : List (String × String)) (n : Nat)
    (ret : Option QueryResult × Option GoError) (sdc sdc1 : ShardConn) (tr tr1 : List Event)
    (c : TabletConn) (hE : sdc.ensureConn env tr = (none, sdc1, tr1)) (hc : sdc1.conn = some c) :
    execDirectLoop env q bv (n + 1) ret sdc tr =
      if (sdc1.mustReturn env (execReturn (env.rpcExecute tr1 c.rpcClient (c.query q bv))).2
          (tr1 ++ [Event.execute c.rpcClient (c.query q bv)
            (env.rpcExecute tr1 c.rpcClient (c.query q bv))])).1 = true
      then some (execReturn (env.rpcExecute tr1 c.rpcClient (c.query q bv)),
        (sdc1.mustReturn env (execReturn (env.rpcExecute tr1 c.rpcClient (c.query q bv))).2
          (tr1 ++ [Event.execute c.rpcClient (c.query q bv)
            (env.rpcExecute tr1 c.rpcClient (c.query q bv))])).2)
      else execDirectLoop env q bv n (execReturn (env.rpcExecute tr1 c.rpcClient (c.query q bv)))
        (sdc1.mustReturn env (execReturn (env.rpcExecute tr1 c.rpcClient (c.query q bv))).2
          (tr1 ++ [Event.execute c.rpcClient (c.query q bv)
            (env.rpcExecute tr1 c.rpcClient (c.query q bv))])).2.1
        (sdc1.mustReturn env (execReturn (env.rpcExecute tr1 c.rpcClient (c.query q bv))).2
          (tr1 ++ [Event.execute c.rpcClient (c.query q bv)
            (env.rpcExecute tr1 c.rpcClient (c.query q bv))])).2.2 := by
  conv => lhs; unfold execDirectLoop
  simp only [hE, hc, TabletConn.ExecDirect_eq, Prod.mk.eta]

/-- One iteration of the loop of `Begin` once the head has left client `c`. -/
theorem beginLoop_succ (env : Env) (n : Nat) (ret : Option GoError) (sdc sdc1 : ShardConn)
    (tr tr1 : List Event) (c : TabletConn) (hE : sdc.ensureConn env tr = (none, sdc1, tr1))
    (hc : sdc1.conn = some c) :
    beginLoop env (n + 1) ret sdc tr =
      if (ShardConn.mustReturn env (c.Begin env tr1).2.1
          { sdc1 with conn := some (c.Begin env tr1).1 } (c.Begin env tr1).2.2).1 = true
      then some ((c.Begin env tr1).2.1,
        (ShardConn.mustReturn env (c.Begin env tr1).2.1
          { sdc1 with conn := some (c.Begin env tr1).1 } (c.Begin env tr1).2.2).2)
      else beginLoop env n (c.Begin env tr1).2.1
        (ShardConn.mustReturn env (c.Begin env tr1).2.1
          { sdc1 with conn := some (c.Begin env tr1).1 } (c.Begin env tr1).2.2).2.1
        (ShardConn.mustReturn env (c.Begin env tr1).2.1
          { sdc1 with conn := some (c.Begin env tr1).1 } (c.Begin env tr1).2.2).2.2 := by
  conv => lhs; unfold beginLoop
  simp only [hE, hc, Prod.mk.eta]

/-- C17 (as amended). A connection holds client `c` without open transaction
and the first call fails with an error that is not a `ServerError`.
`ExecDirect` marks the old address down once and closes the old client once
(`teardownLog`), then runs `connect`; when that `connect` succeeds and the
second call succeeds, `ExecDirect` returns the second result with a nil error
and the connection holds the newly dialled client with the address it was
dialled at.  All `connect` writes are draws, dials, handshakes and the
`MarkDown` of its own failed dials, so the addresses marked down by the call
are the old address, once, followed by those of `connect`.  The same for
`Begin`, whose new client also carries the transaction id answered. -/
theorem c17_retry_on_fresh_backend (env : Env) (q : String) (bv : List (String × String))
    (sdc : ShardConn) (tr : List Event) (c : TabletConn) (e : GoError)
    (hc : sdc.conn = some c) (htx : c.TransactionId = 0) (he : e.isServerError = false) :
    (∀ sdc3 tr3 qr,
        env.rpcExecute tr c.rpcClient (c.query q bv) = .error e →
        (tornDown sdc).connect env (teardownLog env sdc c
          (tr ++ [Event.execute c.rpcClient (c.query q bv) (.error e)])) = (none, sdc3, tr3) →
        (∀ c3, sdc3.conn = some c3 →
          env.rpcExecute tr3 c3.rpcClient (c3.query q bv) = .ok qr) →
        ∃ c3 addr suf, sdc3 = { sdc with address := addr, conn := some c3 } ∧
          tr3 = teardownLog env sdc c
            (tr ++ [Event.execute c.rpcClient (c.query q bv) (.error e)])
              ++ Event.connect :: suf ∧
          Event.balancerGet (.ok addr) ∈ suf ∧ Event.dialHTTP addr (.ok c3.rpcClient) ∈ suf ∧
          sdc.ExecDirect env q bv tr =
            some ((some qr, none), sdc3,
              tr3 ++ [Event.execute c3.rpcClient (c3.query q bv) (.ok qr)]) ∧
          (∀ ev ∈ suf, Event.isDial ev = true) ∧
          markDowns (tr3 ++ [Event.execute c3.rpcClient (c3.query q bv) (.ok qr)]) =
            markDowns tr ++ sdc.address :: markDowns suf ∧
          (markDowns (tr3 ++ [Event.execute c3.rpcClient (c3.query q bv) (.ok qr)])).count
              sdc.address =
            (markDowns tr).count sdc.address + 1 + (markDowns suf).count sdc.address) ∧
      (∀ sdc3 tr3 tid,
        env.rpcBegin tr c.rpcClient c.toSession = .error e →
        (tornDown sdc).connect env (teardownLog env sdc c
          (tr ++ [Event.begin c.rpcClient c.toSession (.error e)])) = (none, sdc3, tr3) →
        (∀ c3, sdc3.conn = some c3 → env.rpcBegin tr3 c3.rpcClient c3.toSession = .ok tid) →
        ∃ c3 addr suf, sdc3 = { sdc with address := addr, conn := some c3 } ∧
          tr3 = teardownLog env sdc c
            (tr ++ [Event.begin c.rpcClient c.toSession (.error e)]) ++ Event.connect :: suf ∧
          Event.balancerGet (.ok addr) ∈ suf ∧ Event.dialHTTP addr (.ok c3.rpcClient) ∈ suf ∧
          sdc.Begin env tr =
            some (none, { sdc3 with conn := some { c3 with TransactionId := tid } },
              tr3 ++ [Event.begin c3.rpcClient c3.toSession (.ok tid)]) ∧
          (∀ ev ∈ suf, Event.isDial ev = true) ∧
          markDowns (tr3 ++ [Event.begin c3.rpcClient c3.toSession (.ok tid)]) =
            markDowns tr ++ sdc.address :: markDowns suf ∧
          (markDowns (tr3 ++ [Event.begin c3.rpcClient c3.toSession (.ok tid)])).count
              sdc.address =
            (markDowns tr).count sdc.address + 1 + (markDowns suf).count sdc.address) := by
  have hin : sdc.inTransaction = false := by simp [ShardConn.inTransaction, hc, htx]
  have hE1 : sdc.ensureConn env tr = (none, sdc, tr) := by simp [ShardConn.ensureConn, hc]
  have hshape : ∀ (tr2 : List Event) (sdc3 : ShardConn) (tr3 : List Event),
      (tornDown sdc).connect env tr2 = (none, sdc3, tr3) →
      ∃ c3 addr suf, sdc3 = { sdc with address := addr, conn := some c3 } ∧
        tr3 = tr2 ++ Event.connect :: suf ∧
        Event.balancerGet (.ok addr) ∈ suf ∧ Event.dialHTTP addr (.ok c3.rpcClient) ∈ suf ∧
        ∀ ev ∈ suf, Event.isDial ev = true := by
    intro tr2 sdc3 tr3 h
    simp only [ShardConn.connect] at h
    obtain ⟨suf1, k1, k2⟩ := connectLoop_log env (tornDown sdc).retryCount.toNat none
      (tornDown sdc) (tr2 ++ [Event.connect])
    rcases connectLoop_cases env (tornDown sdc).retryCount.toNat none (tornDown sdc)
        (tr2 ++ [Event.connect]) with ⟨e2, h1, _⟩ | ⟨_, c3, addr, suf, h2, _, _, h5, h6, h7⟩
    · rw [h] at h1; simp at h1
    · have hsuf : suf1 = suf := by
        rw [k1] at h5
        exact List.append_cancel_left h5
      rw [h] at h2 h5
      simp only at h2 h5
      exact ⟨c3, addr, suf, by rw [h2]; rfl, by rw [h5]; simp, h6, h7, hsuf ▸ k2⟩
  have hcount : ∀ (l : List Event) (suf : List Event),
      markDowns l = markDowns tr ++ sdc.address :: markDowns suf →
      (markDowns l).count sdc.address =
        (markDowns tr).count sdc.address + 1 + (markDowns suf).count sdc.address := by
    intro l suf h
    rw [h, List.count_append, List.count_cons_self]
    omega
  refine ⟨?_, ?_⟩
  · intro sdc3 tr3 qr h1 hconn h2
    obtain ⟨c3, addr, suf, g1, g2, g3, g4, g5⟩ := hshape _ sdc3 tr3 hconn
    have hc3 : sdc3.conn = some c3 := by rw [g1]
    have hE2 : (tornDown sdc).ensureConn env (teardownLog env sdc c
        (tr ++ [Event.execute c.rpcClient (c.query q bv) (.error e)])) = (none, sdc3, tr3) := by
      simp only [ShardConn.ensureConn, tornDown]
      exact hconn
    have hmd : markDowns (tr3 ++ [Event.execute c3.rpcClient (c3.query q bv) (.ok qr)]) =
        markDowns tr ++ sdc.address :: markDowns suf := by
      rw [g2]
      simp [teardownLog, markDowns, Event.markDownAddr]
    refine ⟨c3, addr, suf, g1, g2, g3, g4, ?_, g5, hmd, hcount _ suf hmd⟩
    rw [ShardConn.ExecDirect, execDirectLoop_succ env q bv 1 _ sdc sdc tr tr c hE1 hc, h1]
    simp only [execReturn, mustReturn_fault env sdc c e _ hc htx he, Bool.false_eq_true,
      if_false]
    rw [execDirectLoop_succ env q bv 0 _ _ sdc3 _ tr3 c3 hE2 hc3, h2 c3 hc3]
    simp [execReturn, ShardConn.mustReturn]
  · intro sdc3 tr3 tid h1 hconn h2
    obtain ⟨c3, addr, suf, g1, g2, g3, g4, g5⟩ := hshape _ sdc3 tr3 hconn
    have hc3 : sdc3.conn = some c3 := by rw [g1]
    have hE2 : (tornDown sdc).ensureConn env (teardownLog env sdc c
        (tr ++ [Event.begin c.rpcClient c.toSession (.error e)])) = (none, sdc3, tr3) := by
      simp only [ShardConn.ensureConn, tornDown]
      exact hconn
    have hsd : ({ sdc with conn := some c } : ShardConn) = sdc := by
      cases sdc
      simp only at hc
      simp [hc]
    have hB1 : c.Begin env tr = (c, some e, tr ++ [Event.begin c.rpcClient c.toSession (.error e)]) := by
      simp [TabletConn.Begin, h1]
    have hB2 : c3.Begin env tr3 = ({ c3 with TransactionId := tid }, none,
        tr3 ++ [Event.begin c3.rpcClient c3.toSession (.ok tid)]) := by
      simp [TabletConn.Begin, h2 c3 hc3]
    have hmd : markDowns (tr3 ++ [Event.begin c3.rpcClient c3.toSession (.ok tid)]) =
        markDowns tr ++ sdc.address :: markDowns suf := by
      rw [g2]
      simp [teardownLog, markDowns, Event.markDownAddr]
    refine ⟨c3, addr, suf, g1, g2, g3, g4, ?_, g5, hmd, hcount _ suf hmd⟩
    simp only [ShardConn.Begin, hin, Bool.false_eq_true, if_false]
    rw [beginLoop_succ env 1 _ sdc sdc tr tr c hE1 hc, hB1]
    simp only [hsd, mustReturn_fault env sdc c e _ hc htx he, Bool.false_eq_true, if_false]
    rw [beginLoop_succ env 0 _ _ sdc3 _ tr3 c3 hE2 hc3, hB2]
    simp [ShardConn.mustReturn]

/-- C17 (counterexample). Retry count 3, client 1 held at `A` without
transaction; the first `Execute` call fails with `EOF`; in the `connect` that
follows the Balancer yields `A` again, whose dial fails, then `B`, whose dial
succeeds; the second call succeeds.  `ExecDirect` returns the second result
with a nil error, and the old address `A` has been marked down twice. -/
theorem c17_counterexample :
    ∃ tr3, (heldConn 0 3).ExecDirect envReyield "select 1" [] [] =
        some ((some { Rows := [] }, none),
          { heldConn 0 3 with address := "B", conn := some (dialledConn 2 8) }, tr3) ∧
      executeResults tr3 = [.error (.other "EOF"), .ok { Rows := [] }] ∧
      connectCount tr3 = 1 ∧ markDowns tr3 = ["A", "A"] ∧
      (markDowns tr3).count (heldConn 0 3).address = 2 := by
  refine ⟨[Event.execute 1 ((sampleConn 0).query "select 1" []) (.error (.other "EOF")),
      Event.markDown "A", Event.rpcClose 1 none, Event.connect,
      Event.balancerGet (.ok "A"), Event.dialHTTP "A" (.error (.other "connection refused")),
      Event.markDown "A",
      Event.balancerGet (.ok "B"), Event.dialHTTP "B" (.ok 2),
      Event.getSessionId 2 "ks" "0" (.ok 8),
      Event.execute 2 ((dialledConn 2 8).query "select 1" []) (.ok { Rows := [] })],
    ?_, rfl, rfl, rfl, ?_⟩
  · simp [ShardConn.ExecDirect, execDirectLoop, ShardConn.ensureConn, heldConn, sampleConn,
      dialledConn, TabletConn.ExecDirect, TabletConn.query, envReyield, envOneFault, envHealthy,
      ShardConn.mustReturn, GoError.isServerError, ShardConn.inTransaction, ShardConn.Close,
      TabletConn.Close, ShardConn.connect, connectLoop, DialTablet, executeResults,
      Event.executeRes, drawCount, Event.isBalancerGet]
  · simp [markDowns, Event.markDownAddr, heldConn]

/-- What `connectLoop` leaves: the connection as it was, or a client together
with an address the Balancer yielded and whose dial succeeded. -/
theorem connectLoop_addr (env : Env) (n : Nat) (lastError : Option GoError) (sdc : ShardConn)
    (tr : List Event) :
    (connectLoop env n lastError sdc tr).2.1 = sdc ∨
      ∃ c addr l, env.balancerGet l = .ok addr ∧
        env.dialHTTP (l ++ [Event.balancerGet (.ok addr)]) addr = .ok c.rpcClient ∧
        (connectLoop env n lastError sdc tr).2.1 = { sdc with address := addr, conn := some c } := by
  induction n generalizing lastError tr with
  | zero => exact Or.inl rfl
  | succ n ih =>
    unfold connectLoop
    cases hg : env.balancerGet tr with
    | error err => exact Or.inl rfl
    | ok addr =>
      simp only
      rcases hd : DialTablet env (tr ++ [Event.balancerGet (.ok addr)]) addr sdc.keyspace
        sdc.shard "" "" false with ⟨r, tr2⟩
      cases r with
      | error err => exact ih (some err) (tr2 ++ [Event.markDown addr])
      | ok c =>
        obtain ⟨_, _, h5, _⟩ := DialTablet_ok env _ addr _ _ c tr2 hd
        exact Or.inr ⟨c, addr, tr, hg, h5, rfl⟩

/-- The initial connection has neither client nor address. -/
theorem AddrInv_new (env : Env) (ks sh tt : String) (n : Int) :
    AddrInv env (NewShardConn ks sh tt n) :=
  ⟨fun _ => rfl, fun h => absurd rfl h⟩

/-- The operation `connect` keeps address and client together. -/
theorem AddrInv_connect (env : Env) (sdc : ShardConn) (tr : List Event) (h : AddrInv env sdc) :
    AddrInv env (sdc.connect env tr).2.1 := by
  simp only [ShardConn.connect]
  rcases connectLoop_addr env sdc.retryCount.toNat none sdc (tr ++ [Event.connect]) with
    h1 | ⟨c, addr, l, h1, h5, h2⟩
  · rw [h1]; exact h
  · rw [h2]
    exact ⟨fun h3 => by simp at h3, fun _ => ⟨⟨l, h1⟩, _, _, h5⟩⟩

/-- The operation `Close` leaves neither client nor address. -/
theorem AddrInv_Close (env : Env) (sdc : ShardConn) (tr : List Event) (h : AddrInv env sdc) :
    AddrInv env (sdc.Close env tr).2.1 := by
  cases hc : sdc.conn with
  | none => simp only [ShardConn.Close, hc]; exact h
  | some c =>
    simp only [ShardConn.Close, hc]
    exact ⟨fun _ => rfl, fun h3 => by simp at h3⟩

/-- The policy `mustReturn` keeps address and client together. -/
theorem AddrInv_mustReturn (env : Env) (err : Option GoError) (sdc : ShardConn)
    (tr : List Event) (h : AddrInv env sdc) : AddrInv env (sdc.mustReturn env err tr).2.1 := by
  unfold ShardConn.mustReturn
  cases err with
  | none => exact h
  | some e =>
    cases he : e.isServerError with
    | true => simpa [he] using h
    | false => simpa [he] using AddrInv_Close env sdc _ h

/-- The head of a loop body keeps address and client together. -/
theorem AddrInv_ensureConn (env : Env) (sdc : ShardConn) (tr : List Event)
    (h : AddrInv env sdc) : AddrInv env (sdc.ensureConn env tr).2.1 := by
  unfold ShardConn.ensureConn
  cases hc : sdc.conn with
  | none => exact AddrInv_connect env sdc tr h
  | some c => exact h

/-- Changing the fields of the client held keeps address and client together. -/
theorem AddrInv_update (env : Env) (sdc : ShardConn) (c c1 : TabletConn) (h : AddrInv env sdc)
    (hc : sdc.conn = some c) : AddrInv env { sdc with conn := some c1 } := by
  refine ⟨fun h3 => by simp at h3, fun _ => ?_⟩
  exact h.2 (by rw [hc]; simp)

/-- The loop of `ExecDirect` keeps address and client together. -/
theorem AddrInv_execDirectLoop (env : Env) (q : String) (bv : List (String × String)) :
    ∀ (n : Nat) (ret : Option QueryResult × Option GoError) (sdc : ShardConn) (tr : List Event)
      (r : (Option QueryResult × Option GoError) × ShardConn × List Event),
      AddrInv env sdc → execDirectLoop env q bv n ret sdc tr = some r → AddrInv env r.2.1 := by
  intro n
  induction n with
  | zero =>
    intro ret sdc tr r h hr
    simp only [execDirectLoop, Option.some.injEq] at hr
    rw [← hr]; exact h
  | succ n ih =>
    intro ret sdc tr r h hr
    have h1 := AddrInv_ensureConn env sdc tr h
    unfold execDirectLoop at hr
    rcases hE : sdc.ensureConn env tr with ⟨eo, sdc1, tr1⟩
    rw [hE] at hr h1
    simp only at hr h1
    cases eo with
    | some err =>
      simp only [Option.some.injEq] at hr
      rw [← hr]; exact h1
    | none =>
      cases hc : sdc1.conn with
      | none => simp [hc] at hr
      | some c =>
        simp only [hc] at hr
        have h2 := AddrInv_mustReturn env (c.ExecDirect env q bv tr1).2.1 sdc1
          (c.ExecDirect env q bv tr1).2.2 h1
        split at hr
        · simp only [Option.some.injEq] at hr
          rw [← hr]; exact h2
        · exact ih _ _ _ r h2 hr

/-- The loop of `ExecStream` keeps address and client together. -/
theorem AddrInv_execStreamLoop (env : Env) (q : String) (bv : List (String × String)) :
    ∀ (n : Nat) (ret : Option StreamResult × Option GoError) (sdc : ShardConn) (tr : List Event)
      (r : (Option StreamResult × Option GoError) × ShardConn × List Event),
      AddrInv env sdc → execStreamLoop env q bv n ret sdc tr = some r → AddrInv env r.2.1 := by
  intro n
  induction n with
  | zero =>
    intro ret sdc tr r h hr
    simp only [execStreamLoop, Option.some.injEq] at hr
    rw [← hr]; exact h
  | succ n ih =>
    intro ret sdc tr r h hr
    have h1 := AddrInv_ensureConn env sdc tr h
    unfold execStreamLoop at hr
    rcases hE : sdc.ensureConn env tr with ⟨eo, sdc1, tr1⟩
    rw [hE] at hr h1
    simp only at hr h1
    cases eo with
    | some err =>
      simp only [Option.some.injEq] at hr
      rw [← hr]; exact h1
    | none =>
      cases hc : sdc1.conn with
      | none => simp [hc] at hr
      | some c =>
        simp only [hc] at hr
        have h2 := AddrInv_mustReturn env (c.ExecStream env q bv tr1).2.1 sdc1
          (c.ExecStream env q bv tr1).2.2 h1
        split at hr
        · simp only [Option.some.injEq] at hr
          rw [← hr]; exact h2
        · exact ih _ _ _ r h2 hr

/-- The loop of `Begin` keeps address and client together. -/
theorem AddrInv_beginLoop (env : Env) :
    ∀ (n : Nat) (ret : Option GoError) (sdc : ShardConn) (tr : List Event)
      (r : Option GoError × ShardConn × List Event),
      AddrInv env sdc → beginLoop env n ret sdc tr = some r → AddrInv env r.2.1 := by
  intro n
  induction n with
  | zero =>
    intro ret sdc tr r h hr
    simp only [beginLoop, Option.some.injEq] at hr
    rw [← hr]; exact h
  | succ n ih =>
    intro ret sdc tr r h hr
    have h1 := AddrInv_ensureConn env sdc tr h
    unfold beginLoop at hr
    rcases hE : sdc.ensureConn env tr with ⟨eo, sdc1, tr1⟩
    rw [hE] at hr h1
    simp only at hr h1
    cases eo with
    | some err =>
      simp only [Option.some.injEq] at hr
      rw [← hr]; exact h1
    | none =>
      cases hc : sdc1.conn with
      | none => simp [hc] at hr
      | some c =>
        simp only [hc] at hr
        have h2 := AddrInv_mustReturn env (c.Begin env tr1).2.1
          { sdc1 with conn := some (c.Begin env tr1).1 } (c.Begin env tr1).2.2
          (AddrInv_update env sdc1 c _ h1 hc)
        split at hr
        · simp only [Option.some.injEq] at hr
          rw [← hr]; exact h2
        · exact ih _ _ _ r h2 hr

/-- Every operation returns (no nil-pointer fault) and keeps address and client
together. -/
theorem Op.run_spec (env : Env) (op : Op) (st : ShardConn × List Event)
    (h : AddrInv env st.1) : ∃ st1, op.run env st = some st1 ∧ AddrInv env st1.1 := by
  cases op with
  | connect => exact ⟨_, rfl, AddrInv_connect env st.1 st.2 h⟩
  | close => exact ⟨_, rfl, AddrInv_Close env st.1 st.2 h⟩
  | execDirect q bv =>
    obtain ⟨ret, sdc1, suf, h1, _⟩ := execDirectLoop_spec env q bv 2 (none, none) st.1 st.2
    refine ⟨(sdc1, st.2 ++ suf), by simp [Op.run, ShardConn.ExecDirect, h1], ?_⟩
    exact AddrInv_execDirectLoop env q bv 2 _ st.1 st.2 _ h h1
  | execStream q bv =>
    obtain ⟨ret, sdc1, suf, h1, _⟩ := execStreamLoop_spec env q bv 2 (none, none) st.1 st.2
    refine ⟨(sdc1, st.2 ++ suf), by simp [Op.run, ShardConn.ExecStream, h1], ?_⟩
    exact AddrInv_execStreamLoop env q bv 2 _ st.1 st.2 _ h h1
  | begin =>
    cases hin : st.1.inTransaction with
    | true => exact ⟨st, by simp [Op.run, ShardConn.Begin, hin], h⟩
    | false =>
      obtain ⟨ret, sdc1, suf, h1, _⟩ := beginLoop_spec env 2 none st.1 st.2
      refine ⟨(sdc1, st.2 ++ suf), by simp [Op.run, ShardConn.Begin, hin, h1], ?_⟩
      exact AddrInv_beginLoop env 2 _ st.1 st.2 _ h h1
  | commit =>
    cases hin : st.1.inTransaction with
    | false => exact ⟨st, by simp [Op.run, ShardConn.Commit, hin], h⟩
    | true =>
      cases hc : st.1.conn with
      | none => simp [ShardConn.inTransaction, hc] at hin
      | some c =>
        exact ⟨({ st.1 with conn := some (c.Commit env st.2).1 }, (c.Commit env st.2).2.2),
          by simp [Op.run, ShardConn.Commit, hin, hc],
          AddrInv_update env st.1 c _ h hc⟩
  | rollback =>
    cases hin : st.1.inTransaction with
    | false => exact ⟨st, by simp [Op.run, ShardConn.Rollback, hin], h⟩
    | true =>
      cases hc : st.1.conn with
      | none => simp [ShardConn.inTransaction, hc] at hin
      | some c =>
        exact ⟨({ st.1 with conn := some (c.Rollback env st.2).1 }, (c.Rollback env st.2).2.2),
          by simp [Op.run, ShardConn.Rollback, hin, hc],
          AddrInv_update env st.1 c _ h hc⟩

/-- Every sequence of operations returns and keeps address and client together. -/
theorem runOps_spec (env : Env) (ops : List Op) :
    ∀ (st : ShardConn × List Event), AddrInv env st.1 →
      ∃ st1, runOps env ops st = some st1 ∧ AddrInv env st1.1 := by
  induction ops with
  | nil => intro st h; exact ⟨st, rfl, h⟩
  | cons op ops ih =>
    intro st h
    obtain ⟨st1, h1, h2⟩ := Op.run_spec env op st h
    obtain ⟨st2, h3, h4⟩ := ih st1 h2
    exact ⟨st2, by simp [runOps, h1, h3], h4⟩

/-- C13. For every sequence of operations (`connect`, `Close`, `ExecDirect`,
`ExecStream`, `Begin`, `Commit`, `Rollback`) on a freshly constructed connection
and every behaviour of the Balancer, the dial and the backend (the dial of the
empty string never succeeding, as `net.Dial` has it), the sequence returns and
in the state reached the address is non-empty if and only if a client is held. -/
theorem c13_address_iff_client (env : Env) (ops : List Op) (ks sh tt : String) (n : Int)
    (tr0 : List Event) (hD : DialRejectsEmpty env) :
    ∃ sdc tr, runOps env ops (NewShardConn ks sh tt n, tr0) = some (sdc, tr) ∧
      (sdc.address ≠ "" ↔ sdc.conn ≠ none) := by
  obtain ⟨st1, h1, h2, h3⟩ := runOps_spec env ops (NewShardConn ks sh tt n, tr0)
    (AddrInv_new env ks sh tt n)
  refine ⟨st1.1, st1.2, h1, ?_, ?_⟩
  · intro ha hc
    exact ha (h2 hc)
  · intro hc ha
    obtain ⟨_, l, cl, hl⟩ := h3 hc
    rw [ha] at hl
    exact hD l cl hl

/-- C19. In every state and for every behaviour of the Balancer, the dial and
the backend, no operation calls a method through a nil client: `ExecDirect`,
`ExecStream`, `Begin`, `Commit` and `Rollback` return (the fault outcome `none`
never occurs), and so does every sequence of operations; `connect` returns nil
only with a client stored, the head of a loop body likewise, and the guard
`inTransaction` is passed only when a client is held. -/
theorem c19_no_nil_client_call (env : Env) (q : String) (bv : List (String × String))
    (sdc : ShardConn) (tr : List Event) :
    sdc.ExecDirect env q bv tr ≠ none ∧ sdc.ExecStream env q bv tr ≠ none ∧
      sdc.Begin env tr ≠ none ∧ sdc.Commit env tr ≠ none ∧ sdc.Rollback env tr ≠ none ∧
      ((sdc.connect env tr).1 = none → (sdc.connect env tr).2.1.conn ≠ none) ∧
      ((sdc.ensureConn env tr).1 = none → (sdc.ensureConn env tr).2.1.conn ≠ none) ∧
      (sdc.inTransaction = true → sdc.conn ≠ none) ∧
      (∀ ops ks sh tt n, runOps env ops (NewShardConn ks sh tt n, tr) ≠ none) := by
  have hguard : sdc.inTransaction = true → sdc.conn ≠ none := by
    intro h hc
    simp [ShardConn.inTransaction, hc] at h
  refine ⟨?_, ?_, ?_, ?_, ?_, ?_, ?_, hguard, ?_⟩
  · obtain ⟨_, _, _, h1, _⟩ := execDirectLoop_spec env q bv 2 (none, none) sdc tr
    simp [ShardConn.ExecDirect, h1]
  · obtain ⟨_, _, _, h1, _⟩ := execStreamLoop_spec env q bv 2 (none, none) sdc tr
    simp [ShardConn.ExecStream, h1]
  · cases hin : sdc.inTransaction with
    | true => simp [ShardConn.Begin, hin]
    | false =>
      obtain ⟨_, _, _, h1, _⟩ := beginLoop_spec env 2 none sdc tr
      simp [ShardConn.Begin, hin, h1]
  · cases hin : sdc.inTransaction with
    | false => simp [ShardConn.Commit, hin]
    | true =>
      cases hc : sdc.conn with
      | none => exact absurd hc (hguard hin)
      | some c => simp [ShardConn.Commit, hin, hc]
  · cases hin : sdc.inTransaction with
    | false => simp [ShardConn.Rollback, hin]
    | true =>
      cases hc : sdc.conn with
      | none => exact absurd hc (hguard hin)
      | some c => simp [ShardConn.Rollback, hin, hc]
  · intro h
    simp only [ShardConn.connect] at h ⊢
    rcases connectLoop_cases env sdc.retryCount.toNat none sdc (tr ++ [Event.connect]) with
      ⟨e, h1, _⟩ | ⟨_, c, addr, _, h2, _⟩
    · rw [h1] at h; simp at h
    · rw [h2]; simp
  · intro h
    obtain ⟨_, _, _, _, _, _, k0⟩ := ensureConn_spec env sdc tr
    obtain ⟨c, hc⟩ := k0 h
    rw [hc]; simp
  · intro ops ks sh tt n
    obtain ⟨st1, h1, _⟩ := runOps_spec env ops (NewShardConn ks sh tt n, tr)
      (AddrInv_new env ks sh tt n)
    rw [h1]; simp

/-! ## The theorems at concrete inputs -/

/-- C1 at a concrete input: transaction 42 open on client 1 at `A`, the
`Execute` call fails with `EOF`. -/
theorem c1_witness :
    (heldConn 42 3).ExecDirect envCallsFail "select 1" [] [] =
      some ((none, some (GoError.other "EOF")),
        { heldConn 42 3 with address := "", conn := none },
        [Event.execute 1 ((sampleConn 42).query "select 1" []) (.error (.other "EOF")),
          Event.markDown "A", Event.rpcClose 1 none]) :=
  (c1_execDirect_fault_in_transaction envCallsFail "select 1" [] (heldConn 42 3) []
    (sampleConn 42) (GoError.other "EOF") rfl (by decide) rfl rfl).1

/-- C2 at a concrete input: transaction 42 open, the `Commit` call fails with `EOF`. -/
theorem c2_witness :
    ∃ c, (heldConn 42 3).conn = some c ∧
      (heldConn 42 3).Commit envCommitFails [] =
        some (envCommitFails.rpcCommit [] c.rpcClient c.toSession,
          { heldConn 42 3 with conn := some { c with TransactionId := 0 } },
          [] ++ [Event.commit c.rpcClient c.toSession
            (envCommitFails.rpcCommit [] c.rpcClient c.toSession)]) ∧
      (heldConn 42 3).Rollback envCommitFails [] =
        some (envCommitFails.rpcRollback [] c.rpcClient c.toSession,
          { heldConn 42 3 with conn := some { c with TransactionId := 0 } },
          [] ++ [Event.rollback c.rpcClient c.toSession
            (envCommitFails.rpcRollback [] c.rpcClient c.toSession)]) :=
  c2_commit_rollback_once envCommitFails (heldConn 42 3) [] rfl

/-- C3 at a concrete input: transaction 42 open, `Commit` fails with `EOF`;
afterwards `inTransaction` is false and client 1 with session 7 is still held. -/
theorem c3_witness :
    ∃ err sdc1 tr1 c1, (heldConn 42 3).Commit envCommitFails [] = some (err, sdc1, tr1) ∧
      err = some (GoError.other "EOF") ∧
      sdc1.conn = some c1 ∧ c1.TransactionId = 0 ∧ c1.SessionId = 7 ∧
      c1.ConnectionId = 0 ∧ c1.rpcClient = 1 ∧
      sdc1.address = "A" ∧ sdc1.inTransaction = false :=
  (c3_commit_rollback_resets envCommitFails (heldConn 42 3) [] (sampleConn 42) rfl
    (by decide)).1

/-- C4 at a concrete input: transaction 42 open, `Begin` is refused. -/
theorem c4_witness :
    (heldConn 42 3).Begin envHealthy [] =
      some (some (GoError.other "cannot begin: already in transaction"), heldConn 42 3, []) :=
  c4_begin_in_transaction envHealthy (heldConn 42 3) [] rfl

/-- C5 at a concrete input: a fresh connection, `Commit` and `Rollback` are refused. -/
theorem c5_witness :
    (NewShardConn "ks" "0" "master" 3).inTransaction = false ∧
      (NewShardConn "ks" "0" "master" 3).Commit envHealthy [] =
        some (some (GoError.other "cannot commit: not in transaction"),
          NewShardConn "ks" "0" "master" 3, []) ∧
      (NewShardConn "ks" "0" "master" 3).Rollback envHealthy [] =
        some (some (GoError.other "cannot rollback: not in transaction"),
          NewShardConn "ks" "0" "master" 3, []) :=
  c5_commit_rollback_not_in_transaction envHealthy (NewShardConn "ks" "0" "master" 3) []
    (Or.inl rfl)

/-- C6 at a concrete input: a held client with transaction 42 open, the
`Execute` call answers with a `ServerError`. -/
theorem c6_witness :
    (heldConn 42 3).ExecDirect envServerError "select 1" [] [] =
      some ((none, some (GoError.serverError "syntax error")), heldConn 42 3,
        [Event.execute 1 ((sampleConn 42).query "select 1" [])
          (.error (.serverError "syntax error"))]) :=
  (c6_server_error_verbatim envServerError "select 1" [] (heldConn 42 3) (heldConn 42 3) [] []
    (sampleConn 42) (GoError.serverError "syntax error") rfl rfl rfl).2.1 rfl

/-- C10 at a concrete input: retry count 3, the Balancer yields `A`, `B`, `C`,
the dials of `A` and `B` fail and the dial of `C` succeeds. -/
theorem c10_witness :
    ∃ c suf l, (NewShardConn "ks" "0" "master" 3).connect envABC [] =
        (none, { NewShardConn "ks" "0" "master" 3 with address := "C", conn := some c },
          [] ++ suf) ∧
      drawCount suf = 3 ∧ markDowns suf = ["A", "B"] ∧ connectCount suf = 1 ∧
      DialTablet envABC ([] ++ l) "C" "ks" "0" "" "" false = (.ok c, [] ++ suf) :=
  c10_connect_kth_dial_succeeds envABC (NewShardConn "ks" "0" "master" 3) [] ["A", "B"] "C"
    (by decide)
    (fun i a l h hl => by
      rcases i with _ | _ | _ | i <;> simp_all [envABC])
    (fun i a l h _ => by
      rcases i with _ | _ | i <;> simp at h <;> subst h <;>
        exact ⟨GoError.other "connection refused", by simp [DialTablet, envABC, NewShardConn]⟩)
    (fun l _ => ⟨dialledConn 3 8, by simp [DialTablet, envABC, envHealthy, dialledConn]⟩)

/-- C11 at a concrete input: retry count 3, the Balancer yields `A`, `B`, `C`
and the three dials fail, the last one with `timeout`. -/
theorem c11_witness :
    ∃ suf, (NewShardConn "ks" "0" "master" 3).connect envDialsFail [] =
        (some (connectError (NewShardConn "ks" "0" "master" 3) (some (GoError.other "timeout"))),
          NewShardConn "ks" "0" "master" 3, [] ++ suf) ∧
      drawCount suf = 3 ∧ dialCount suf = 3 ∧ markDowns suf = ["A", "B", "C"] ∧
      ((NewShardConn "ks" "0" "master" 3).connect envDialsFail []).2.1.conn = none ∧
      ((NewShardConn "ks" "0" "master" 3).connect envDialsFail []).2.1.address = "" ∧
      (connectError (NewShardConn "ks" "0" "master" 3) (some (GoError.other "timeout"))).msg =
        "could not obtain connection to " ++ "ks" ++ "." ++ "0" ++ "." ++ "master"
          ++ ", last error: " ++ "timeout" :=
  c11_connect_exhausted envDialsFail (NewShardConn "ks" "0" "master" 3) []
    [("A", GoError.other "connection refused"), ("B", GoError.other "connection refused"),
      ("C", GoError.other "timeout")]
    ("C", GoError.other "timeout") rfl rfl rfl rfl
    (fun i d l h hl => by
      rcases i with _ | _ | _ | i <;> simp at h <;> subst h <;> simp_all [envDialsFail])
    (fun i d l h _ => by
      rcases i with _ | _ | _ | i <;> simp at h <;> subst h <;>
        simp [DialTablet, envDialsFail, NewShardConn])

/-- C12 at a concrete input: retry count 3, the dial of `A` fails, then the
Balancer has no address left. -/
theorem c12_witness :
    ∃ pre, (NewShardConn "ks" "0" "master" 3).connect envSelectorFails [] =
        (some (GoError.other "no available addresses"), NewShardConn "ks" "0" "master" 3,
          [] ++ pre ++ [Event.balancerGet (.error (.other "no available addresses"))]) ∧
      drawCount pre = 1 ∧ dialCount pre = 1 ∧
      (NewShardConn "ks" "0" "master" 3).ExecDirect envSelectorFails "select 1" [] [] =
        some ((none, some (GoError.other "no available addresses")),
          NewShardConn "ks" "0" "master" 3,
          [] ++ pre ++ [Event.balancerGet (.error (.other "no available addresses"))]) := by
  obtain ⟨pre, h1, h2, h3, _, _, _, h7, _⟩ :=
    c12_selector_error_surfaces envSelectorFails "select 1" []
      (NewShardConn "ks" "0" "master" 3) []
      [("A", GoError.other "connection refused")] (GoError.other "no available addresses")
      rfl (by decide)
      (fun i d l h hl => by
        rcases i with _ | i
        · simp at h; subst h; simp_all [envSelectorFails]
        · simp at h)
      (fun i d l h _ => by
        rcases i with _ | i
        · simp at h; subst h; simp [DialTablet, envSelectorFails, NewShardConn]
        · simp at h)
      (fun l hl => by
        simp only [List.length_singleton] at hl
        simp [envSelectorFails, hl])
  exact ⟨pre, h1, h2, h3, h7⟩

/-- C13 at a concrete input: the Balancer first yields the empty string, whose
dial fails, then `B`; `Begin`, a query, `Commit`, `Close` on a fresh connection. -/
theorem c13_witness :
    ∃ sdc tr, runOps envEmptyThenB [Op.begin, Op.execDirect "select 1" [], Op.commit, Op.close]
        (NewShardConn "ks" "0" "master" 3, []) = some (sdc, tr) ∧
      (sdc.address ≠ "" ↔ sdc.conn ≠ none) :=
  c13_address_iff_client envEmptyThenB
    [Op.begin, Op.execDirect "select 1" [], Op.commit, Op.close]
    "ks" "0" "master" 3 [] (fun l cl => by simp [envEmptyThenB])

/-- C14 at a concrete input: `Close` on a connection holding client 1. -/
theorem c14_witness :
    (heldConn 0 3).Close envHealthy [] =
      (none, tornDown (heldConn 0 3), [Event.rpcClose 1 none]) :=
  (c14_close_idempotent envHealthy (heldConn 0 3) [] (fun h => by cases h)).2.2.2.1
    (sampleConn 0) rfl

/-- C15 at a concrete input: `Begin` answers transaction id 5, `Commit` succeeds. -/
theorem c15_witness :
    (heldConn 5 3).inTransaction = true ∧ (none : Option GoError) = none ∧
      (heldConn 0 3).inTransaction = false ∧
      ∃ c pre ss0, (heldConn 5 3).conn = some c ∧ c.TransactionId ≠ 0 ∧
        [Event.begin 1 (sampleConn 0).toSession (.ok 5)]
          = pre ++ [Event.begin c.rpcClient ss0 (.ok c.TransactionId)] ∧
        1 = c.rpcClient ∧ (sampleConn 5).toSession = c.toSession ∧
        heldConn 0 3 = { heldConn 5 3 with conn := some { c with TransactionId := 0 } } :=
  c15_begin_then_commit envHealthy (heldConn 0 3) (heldConn 5 3) (heldConn 0 3) []
    [Event.begin 1 (sampleConn 0).toSession (.ok 5)] none 1 (sampleConn 5).toSession
    rfl
    (by simp [ShardConn.Begin, ShardConn.inTransaction, heldConn, sampleConn, beginLoop,
      ShardConn.ensureConn, TabletConn.Begin, envHealthy, ShardConn.mustReturn])
    (by simp [ShardConn.Commit, ShardConn.inTransaction, heldConn, sampleConn,
      TabletConn.Commit, envHealthy])

/-- C16 at concrete inputs: with the transport error `EOF`, `mustReturn` is true
on a client with transaction id 42 and false on a client with transaction id 0. -/
theorem c16_witness :
    ((heldConn 42 3).mustReturn envHealthy (some (GoError.other "EOF")) []).1 = true ∧
      ((heldConn 0 3).mustReturn envHealthy (some (GoError.other "EOF")) []).1 = false :=
  ⟨(c16_mustReturn_policy envHealthy (some (GoError.other "EOF")) (heldConn 42 3) []).1.mpr
      (Or.inr (Or.inr ⟨sampleConn 42, rfl, by decide⟩)),
    (c16_mustReturn_policy envHealthy (some (GoError.other "EOF")) (heldConn 0 3) []).2.1.mpr
      ⟨GoError.other "EOF", rfl, rfl, Or.inr ⟨sampleConn 0, rfl, rfl⟩⟩⟩

/-- C17 (as amended) at a concrete input: the first `Execute` call on client 1
at `A` fails with `EOF`, the Balancer yields `B`, the dial succeeds and the
second call succeeds on client 2; `A` is marked down exactly once. -/
theorem c17_witness :
    (heldConn 0 3).ExecDirect envOneFault "select 1" [] [] =
        some ((some { Rows := [] }, none),
          { heldConn 0 3 with address := "B", conn := some (dialledConn 2 8) },
          [Event.execute 1 ((sampleConn 0).query "select 1" []) (.error (.other "EOF")),
            Event.markDown "A", Event.rpcClose 1 none, Event.connect,
            Event.balancerGet (.ok "B"), Event.dialHTTP "B" (.ok 2),
            Event.getSessionId 2 "ks" "0" (.ok 8),
            Event.execute 2 ((dialledConn 2 8).query "select 1" []) (.ok { Rows := [] })]) ∧
      (markDowns
          [Event.execute 1 ((sampleConn 0).query "select 1" []) (.error (.other "EOF")),
            Event.markDown "A", Event.rpcClose 1 none, Event.connect,
            Event.balancerGet (.ok "B"), Event.dialHTTP "B" (.ok 2),
            Event.getSessionId 2 "ks" "0" (.ok 8),
            Event.execute 2 ((dialledConn 2 8).query "select 1" [])
              (.ok { Rows := [] })]).count "A" = 1 := by
  obtain ⟨c3, addr, suf, g1, _, _, _, g5, _, _, _⟩ :=
    (c17_retry_on_fresh_backend envOneFault "select 1" [] (heldConn 0 3) [] (sampleConn 0)
      (GoError.other "EOF") rfl rfl rfl).1
      { heldConn 0 3 with address := "B", conn := some (dialledConn 2 8) }
      [Event.execute 1 ((sampleConn 0).query "select 1" []) (.error (.other "EOF")),
        Event.markDown "A", Event.rpcClose 1 none, Event.connect,
        Event.balancerGet (.ok "B"), Event.dialHTTP "B" (.ok 2),
        Event.getSessionId 2 "ks" "0" (.ok 8)]
      { Rows := [] }
      (by simp [envOneFault, executeResults])
      (by simp [ShardConn.connect, tornDown, teardownLog, heldConn, sampleConn, dialledConn,
        connectLoop, DialTablet, envOneFault, envHealthy, TabletConn.query])
      (fun c3 _ => by simp [envOneFault, executeResults, Event.executeRes])
  have hc3 : c3 = dialledConn 2 8 := by
    have := congrArg ShardConn.conn g1
    simp only [Option.some.injEq] at this
    exact this.symm
  subst hc3
  exact ⟨by simpa using g5, by simp [markDowns, Event.markDownAddr]⟩

/-- C20 at a concrete input: a fresh connection built with retry count 0. -/
theorem c20_witness :
    (NewShardConn "ks" "0" "master" 0).ExecDirect envHealthy "select 1" [] [] =
      some ((none, some (connectError (NewShardConn "ks" "0" "master" 0) none)),
        NewShardConn "ks" "0" "master" 0, [Event.connect]) :=
  (c20_nonpositive_retryCount envHealthy "select 1" [] (NewShardConn "ks" "0" "master" 0) []
    (by decide) rfl).2.2.2.2.1

end Barnacle
